import Mathlib

/-!
Verification of the dotverse minigame lobby core (src/minigame/models.py and
the pure parts of src/minigame/websocket_server.py), as a shallow embedding.

Modelling conventions:
* Python `int` is `Int` (arbitrary precision, no overflow); timestamps
  (`time.time()`) are passed in as an explicit `now : Int` parameter.
* Python dicts with numeric values read through `.get(k, 0)` are modelled as
  total functions `String → Int` with default 0.  `Lobby.cast_color_theme_vote`
  decrements `color_theme_votes[v]` by direct indexing, which in Python raises
  `KeyError` when the key is absent; the total-function model instead reads the
  default.  On the states arising here the key is always present (the tally at
  a cast vote is at least 1), so the two semantics agree.
* Python sets (`Drawing.current_voters`, `Lobby.banned_players`) are modelled
  as `Finset String` resp. `List String` with set-like insertion; only
  membership and insertion/removal are ever used.
* `Player.drawing` holds an object reference in Python; the only things the
  code ever reads from it are its presence (`is not None`).  It is modelled as
  `Option String` holding the referenced drawing's identifier.
* Methods that mutate `self` become functions `Lobby → ... → Lobby`; methods
  returning a value as well return a pair.  `random.choice` results
  (`start_drawing_phase`) are passed as parameters, and the fresh
  `uuid.uuid4()` of a submitted drawing is passed as a parameter `did`.
* Python truthiness of an optional string (`if player.color_theme_vote:`)
  is false for both `None` and `""`; `pyTruthyOptStr` models this exactly.
-/

namespace Dotverse

/-- Truthiness of a Python `Optional[str]`: `None` and `""` are falsy. -/
def pyTruthyOptStr : Option String → Bool
  | none => false
  | some s => s ≠ ""

/-- Truthiness of a Python `Optional[float]` time value: `None` and `0` are falsy. -/
def pyTruthyOptInt : Option Int → Bool
  | none => false
  | some t => t ≠ 0

/-- Replace the first element satisfying `q` by its image under `f`
    (Python mutates the object returned by a first-match lookup in place). -/
def updateFirstBy {α : Type} (q : α → Bool) (f : α → α) : List α → List α
  | [] => []
  | x :: xs => if q x then f x :: xs else x :: updateFirstBy q f xs

/-- The `GameStatus` enum from models.py. -/
inductive GameStatus where
  | waiting_for_players
  | theme_voting
  | drawing
  | voting_for_drawings
  | showcasing_results
  | ended
deriving DecidableEq

/-- The `.value` string of the Python enum member. -/
def GameStatus.value : GameStatus → String
  | .waiting_for_players => "waiting_for_players"
  | .theme_voting => "theme_voting"
  | .drawing => "drawing"
  | .voting_for_drawings => "voting_for_drawings"
  | .showcasing_results => "showcasing_results"
  | .ended => "ended"

/-- Embeds `Drawing` from models.py.  `drawing_id` is the `uuid4` assigned at
    construction, passed in explicitly by the embedding of `submit_drawing`. -/
structure Drawing where
  drawing_id : String
  player_id : String
  drawing_data : String
  drawing_theme : String
  votes : Int
  current_voters : Finset String
deriving DecidableEq

/-- Embeds `Player` from models.py.  `drawing` holds the identifier of the attached
    drawing object (only its presence is ever read by the code). -/
structure Player where
  player_id : String
  display_name : String
  is_ready : Bool
  score : Int
  voted_for_drawing_id : Option String
  color_theme_vote : Option String
  drawing : Option String
  is_host : Bool
deriving DecidableEq

/-- Embeds `Player.__init__`. -/
def Player.init (player_id display_name : String) : Player :=
  { player_id := player_id
    display_name := display_name
    is_ready := false
    score := 0
    voted_for_drawing_id := none
    color_theme_vote := none
    drawing := none
    is_host := false }

/-- Embeds `LobbySettings` from models.py. -/
structure LobbySettings where
  max_players : Int
  min_players : Int
  theme_voting_time : Int
  drawing_time : Int
  voting_time : Int
  showcase_time_per_drawing : Int
  allow_spectators : Bool
  private_lobby : Bool
  lobby_password : Option String
  custom_themes : List String
  enable_chat : Bool
  auto_start_when_ready : Bool
  winner_takes_all : Bool
deriving DecidableEq

/-- Embeds `LobbySettings.__init__` (GAME_DRAW_TIME_SECONDS = 300). -/
def LobbySettings.init : LobbySettings :=
  { max_players := 4
    min_players := 2
    theme_voting_time := 30
    drawing_time := 300
    voting_time := 60
    showcase_time_per_drawing := 10
    allow_spectators := true
    private_lobby := false
    lobby_password := none
    custom_themes := []
    enable_chat := true
    auto_start_when_ready := false
    winner_takes_all := false }

/-- Embeds `Lobby` from models.py.  The two showcase/voting indices start at 0 and are
    only ever incremented, so they are `Nat` (the Python guard `0 <= i` is
    then automatic).  `color_theme_votes` is the default-0 dict model. -/
structure Lobby where
  lobby_id : String
  players : List Player
  game_status : GameStatus
  settings : LobbySettings
  drawings : List Drawing
  current_drawing_theme : Option String
  current_canvas_color_theme : Option String
  timer_end_time : Option Int
  game_start_time : Option Int
  current_showcased_drawing_index : Nat
  current_voting_drawing_index : Nat
  voting_display_end_time : Option Int
  color_theme_votes : String → Int
  possible_color_themes : List String
  possible_drawing_prompts : List String
  host_id : Option String
  banned_players : List String
  spectators : List Player

/-- Embeds `Lobby.__init__(lobby_id, max_players, min_players)`. -/
def Lobby.init (lobby_id : String) (max_players min_players : Int) : Lobby :=
  { lobby_id := lobby_id
    players := []
    game_status := .waiting_for_players
    settings := { LobbySettings.init with max_players := max_players, min_players := min_players }
    drawings := []
    current_drawing_theme := none
    current_canvas_color_theme := none
    timer_end_time := none
    game_start_time := none
    current_showcased_drawing_index := 0
    current_voting_drawing_index := 0
    voting_display_end_time := none
    color_theme_votes := fun _ => 0
    possible_color_themes := ["Nature", "Animals", "Food", "Technology", "Fantasy", "Space", "Sports", "Music"]
    possible_drawing_prompts :=
      ["A mythical creature", "A dream you had", "Your favorite food",
       "A city in the clouds", "An alien landscape", "A self-portrait as an animal",
       "The meaning of life", "A robot in love", "A secret garden", "Time travel"]
    host_id := none
    banned_players := []
    spectators := [] }

/-- Embeds `Lobby.get_player`: first participant with the given identifier. -/
def Lobby.getPlayer (L : Lobby) (player_id : String) : Option Player :=
  L.players.find? (fun p => p.player_id == player_id)

/-- Embeds `Lobby.set_host`. -/
def Lobby.setHost (L : Lobby) (player_id : String) : Lobby :=
  { L with host_id := some player_id
           players := L.players.map (fun p => { p with is_host := p.player_id == player_id }) }

/-- Embeds `Lobby.is_host` (`None == pid` is false in Python). -/
def Lobby.isHost (L : Lobby) (player_id : String) : Bool :=
  L.host_id == some player_id

/-- Embeds `Lobby.can_player_join`. -/
def Lobby.canPlayerJoin (L : Lobby) (player_id : String) : Bool × String :=
  if L.banned_players.contains player_id then
    (false, "You have been banned from this lobby")
  else if L.settings.max_players ≤ (L.players.length : Int) then
    if L.settings.allow_spectators then
      (false, "Lobby is full, but you can join as a spectator")
    else
      (false, "Lobby is full")
  else if L.game_status ≠ GameStatus.waiting_for_players then
    (false, "Game is already in progress")
  else
    (true, "")

/-- Embeds `Lobby.add_player`.  `player not in self.players` uses `Player.__eq__`,
    which compares `player_id`; `if not self.host_id` is string-option
    truthiness. -/
def Lobby.addPlayer (L : Lobby) (player : Player) : Lobby × Bool :=
  if !(L.canPlayerJoin player.player_id).1 then
    (L, false)
  else if L.players.all (fun p => p.player_id != player.player_id) then
    let L1 : Lobby := { L with players := L.players ++ [player] }
    let L2 : Lobby := if !pyTruthyOptStr L1.host_id then L1.setHost player.player_id else L1
    (L2, true)
  else
    (L, false)

instance : Inhabited Player := ⟨Player.init "" ""⟩

/-- Embeds `Lobby.remove_player`.  Drops the participant, reassigns or clears the
    host (`players[0]` of the nonempty filtered list is its head), and in
    DRAWING / VOTING_FOR_DRAWINGS also drops their drawing. -/
def Lobby.removePlayer (L : Lobby) (player_id : String) : Lobby :=
  let L1 : Lobby := { L with players := L.players.filter (fun p => p.player_id != player_id) }
  let L2 : Lobby :=
    if (L1.host_id == some player_id) = true ∧ L1.players ≠ [] then
      L1.setHost L1.players.headI.player_id
    else if L1.players = [] then { L1 with host_id := none }
    else L1
  if L2.game_status = GameStatus.drawing ∨ L2.game_status = GameStatus.voting_for_drawings then
    { L2 with drawings := L2.drawings.filter (fun d => d.player_id != player_id) }
  else
    L2

/-- Embeds `Lobby.set_player_ready`: no status guard in the source; only the
    presence of the participant is checked. -/
def Lobby.setPlayerReady (L : Lobby) (player_id : String) (ready_status : Bool) : Lobby :=
  match L.getPlayer player_id with
  | none => L
  | some _ =>
      { L with players := updateFirstBy (fun p => p.player_id == player_id)
                            (fun p => { p with is_ready := ready_status }) L.players }

/-- Embeds `Lobby.all_players_ready` (`False` on an empty lobby). -/
def Lobby.allPlayersReady (L : Lobby) : Bool :=
  if L.players.isEmpty then false else L.players.all (fun p => p.is_ready)

/-- Embeds `Lobby.can_start_game`. -/
def Lobby.canStartGame (L : Lobby) : Bool :=
  (L.settings.min_players ≤ (L.players.length : Int)) && L.allPlayersReady
    && (L.game_status == GameStatus.waiting_for_players)

/-- Embeds `Lobby.start_theme_voting`. -/
def Lobby.startThemeVoting (L : Lobby) (now : Int) : Lobby :=
  if L.game_status = GameStatus.waiting_for_players
      ∧ L.settings.min_players ≤ (L.players.length : Int) then
    { L with game_status := .theme_voting
             timer_end_time := some (now + L.settings.theme_voting_time)
             color_theme_votes := fun _ => 0 }
  else L

/-- Embeds `self.color_theme_votes[v0] -= 1`, guarded by Python truthiness of the
    prior vote (`if player.color_theme_vote:`).  Python raises `KeyError`
    when the key is absent; the default-0 dict model decrements the default
    instead (the key is present on every state arising here). -/
def decTally (tally : String → Int) (v0opt : Option String) : String → Int :=
  match v0opt with
  | some v0 =>
      if v0 ≠ "" then fun t => if t == v0 then tally t - 1 else tally t
      else tally
  | none => tally

/-- Embeds `self.color_theme_votes[theme] = self.color_theme_votes.get(theme, 0) + 1`. -/
def incTally (tally : String → Int) (theme : String) : String → Int :=
  fun t => if t == theme then tally theme + 1 else tally t

/-- Embeds `Lobby.cast_color_theme_vote`.  The decrement of the prior vote's tally
    happens before the participant's vote is overwritten. -/
def Lobby.castColorThemeVote (L : Lobby) (player_id theme : String) : Lobby × Bool :=
  match L.getPlayer player_id with
  | none => (L, false)
  | some player =>
      if L.game_status = GameStatus.theme_voting ∧ theme ∈ L.possible_color_themes then
        ({ L with players := updateFirstBy (fun p => p.player_id == player_id)
                               (fun p => { p with color_theme_vote := some theme }) L.players
                  color_theme_votes := incTally (decTally L.color_theme_votes player.color_theme_vote) theme },
         true)
      else (L, false)

/-- Embeds `Lobby.start_drawing_phase`.  The winning color theme and the drawing
    prompt are chosen by `random.choice` in the source and passed here as
    parameters (the prompt is assigned twice in the source; only the second
    assignment survives). -/
def Lobby.startDrawingPhase (L : Lobby) (now : Int) (winTheme prompt : String) : Lobby :=
  if L.game_status = GameStatus.theme_voting then
    { L with current_canvas_color_theme := some winTheme
             game_status := .drawing
             timer_end_time := some (now + L.settings.drawing_time)
             current_drawing_theme := some prompt
             drawings := []
             players := L.players.map (fun p => { p with drawing := none, voted_for_drawing_id := none }) }
  else L

/-- Embeds `Lobby.submit_drawing`.  `did` is the fresh `uuid4` of the new drawing.
    The source has no already-submitted check: every call in DRAWING with a
    prompt set and a present participant appends a new drawing. -/
def Lobby.submitDrawing (L : Lobby) (player_id drawing_data did : String) : Lobby × Bool :=
  match L.getPlayer player_id, L.current_drawing_theme with
  | some _, some theme =>
      if L.game_status = GameStatus.drawing then
        let d : Drawing :=
          { drawing_id := did, player_id := player_id, drawing_data := drawing_data
            drawing_theme := theme, votes := 0, current_voters := ∅ }
        ({ L with players := updateFirstBy (fun p => p.player_id == player_id)
                               (fun p => { p with drawing := some did }) L.players
                  drawings := L.drawings ++ [d] }, true)
      else (L, false)
  | _, _ => (L, false)

/-- Embeds `Lobby.start_voting_phase` (guard: in DRAWING with a nonempty drawings
    list; clears every participant's drawing vote and every drawing's live
    voter set). -/
def Lobby.startVotingPhase (L : Lobby) (now : Int) : Lobby :=
  if L.game_status = GameStatus.drawing ∧ L.drawings ≠ [] then
    { L with game_status := .voting_for_drawings
             current_voting_drawing_index := 0
             voting_display_end_time := some (now + 10)
             timer_end_time := some (now + ((L.drawings.length : Int) * 10 + 30))
             players := L.players.map (fun p => { p with voted_for_drawing_id := none })
             drawings := L.drawings.map (fun d => { d with current_voters := ∅ }) }
  else L

/-- Embeds `Lobby.get_current_voting_drawing`. -/
def Lobby.getCurrentVotingDrawing (L : Lobby) : Option Drawing :=
  if L.game_status = GameStatus.voting_for_drawings
      ∧ L.current_voting_drawing_index < L.drawings.length then
    L.drawings[L.current_voting_drawing_index]?
  else none

/-- Embeds `Lobby.cast_vote`.  Refusal paths return before any mutation.  The prior
    vote's drawing (first match on the stored identifier) is decremented with
    a floor of 0 before the displayed drawing (first match on `drawing_id`)
    is incremented; the two first-match predicates are disjoint because the
    already-voted check has ruled out `voted_for_drawing_id == drawing_id`. -/
def Lobby.castVote (L : Lobby) (voter_player_id drawing_id : String) : Lobby × Bool :=
  match L.getPlayer voter_player_id with
  | none => (L, false)
  | some voter =>
      match L.getCurrentVotingDrawing with
      | none => (L, false)
      | some current_drawing =>
          if current_drawing.drawing_id ≠ drawing_id then (L, false)
          else if voter.voted_for_drawing_id == some drawing_id then (L, false)
          else
            match L.drawings.find? (fun d => d.drawing_id == drawing_id) with
            | none => (L, false)
            | some target_drawing =>
                if target_drawing.player_id ≠ voter_player_id then
                  let drawings1 :=
                    if pyTruthyOptStr voter.voted_for_drawing_id then
                      updateFirstBy (fun d => some d.drawing_id == voter.voted_for_drawing_id)
                        (fun d => { d with votes := max 0 (d.votes - 1)
                                           current_voters := d.current_voters.erase voter_player_id })
                        L.drawings
                    else L.drawings
                  let drawings2 :=
                    updateFirstBy (fun d => d.drawing_id == drawing_id)
                      (fun d => { d with votes := d.votes + 1
                                         current_voters := insert voter_player_id d.current_voters })
                      drawings1
                  ({ L with drawings := drawings2
                            players := updateFirstBy (fun p => p.player_id == voter_player_id)
                                         (fun p => { p with voted_for_drawing_id := some drawing_id })
                                         L.players }, true)
                else (L, false)

/-- Embeds `Lobby.start_showcasing_results`: stable sort of the drawings by tallied
    votes, descending (`list.sort(key=votes, reverse=True)`). -/
def Lobby.startShowcasingResults (L : Lobby) (now : Int) : Lobby :=
  if L.game_status = GameStatus.voting_for_drawings then
    { L with game_status := .showcasing_results
             drawings := L.drawings.mergeSort (fun a b => b.votes ≤ a.votes)
             current_showcased_drawing_index := 0
             timer_end_time := some (now + L.settings.showcase_time_per_drawing) }
  else L

/-- Embeds `Lobby.end_game`: sets status ENDED and clears per-round participant
    state; scores are untouched.  Nothing in the source ever returns the
    status to WAITING_FOR_PLAYERS afterwards. -/
def Lobby.endGame (L : Lobby) : Lobby :=
  { L with game_status := .ended
           players := L.players.map (fun p =>
             { p with is_ready := false, color_theme_vote := none
                      drawing := none, voted_for_drawing_id := none })
           color_theme_votes := fun _ => 0
           current_canvas_color_theme := none
           current_drawing_theme := none
           drawings := []
           current_voting_drawing_index := 0
           voting_display_end_time := none }

/-- Embeds `Lobby.next_showcase`. -/
def Lobby.nextShowcase (L : Lobby) (now : Int) : Lobby × Bool :=
  if L.game_status = GameStatus.showcasing_results then
    let L1 : Lobby := { L with current_showcased_drawing_index := L.current_showcased_drawing_index + 1 }
    if L1.current_showcased_drawing_index < L1.drawings.length then
      ({ L1 with timer_end_time := some (now + L1.settings.showcase_time_per_drawing) }, true)
    else (L1.endGame, false)
  else (L, false)

/-- Embeds `Lobby.advance_voting_display`. -/
def Lobby.advanceVotingDisplay (L : Lobby) (now : Int) : Lobby × Bool :=
  if L.game_status ≠ GameStatus.voting_for_drawings then (L, false)
  else
    let L1 : Lobby := { L with current_voting_drawing_index := L.current_voting_drawing_index + 1 }
    if L1.current_voting_drawing_index < L1.drawings.length then
      ({ L1 with voting_display_end_time := some (now + 10) }, true)
    else ({ L1 with voting_display_end_time := none }, false)

/-- Embeds `Lobby.kick_player`. `self.players.remove(...)` removes the first
    list element equal under `Player.__eq__`, i.e. the first identifier
    match. -/
def Lobby.kickPlayer (L : Lobby) (host_id target_player_id : String) : Lobby × Bool × String :=
  if !L.isHost host_id then (L, false, "Only the host can kick players")
  else if target_player_id == host_id then (L, false, "Host cannot kick themselves")
  else
    match L.players.find? (fun p => p.player_id == target_player_id) with
    | none => (L, false, "Player not found in lobby")
    | some p =>
        ({ L with players := L.players.eraseP (fun q => q.player_id == target_player_id) },
         true, "Player " ++ p.display_name ++ " has been kicked")

/-- Embeds `Lobby.ban_player`. -/
def Lobby.banPlayer (L : Lobby) (host_id target_player_id : String) : Lobby × Bool × String :=
  if !L.isHost host_id then (L, false, "Only the host can ban players")
  else if target_player_id == host_id then (L, false, "Host cannot ban themselves")
  else
    match L.players.find? (fun p => p.player_id == target_player_id) with
    | none => (L, false, "Player not found in lobby")
    | some p =>
        ({ L with players := L.players.eraseP (fun q => q.player_id == target_player_id)
                  banned_players := L.banned_players.insert target_player_id },
         true, "Player " ++ p.display_name ++ " has been banned")

/-- Embeds `Lobby.transfer_host`. -/
def Lobby.transferHost (L : Lobby) (current_host_id new_host_id : String) : Lobby × Bool × String :=
  if !L.isHost current_host_id then (L, false, "Only the host can transfer host privileges")
  else if L.players.any (fun p => p.player_id == new_host_id) then
    (L.setHost new_host_id, true, "Host privileges transferred")
  else (L, false, "Target player not found in lobby")

/-! ### Broadcast snapshot (`LobbySettings.to_dict`, `Lobby.get_lobby_state`) -/

/-- The dictionary produced by `LobbySettings.to_dict`: the `lobby_password`
    field is replaced by the boolean `has_password`, and no field of this
    record holds a password. -/
structure SettingsDict where
  max_players : Int
  min_players : Int
  theme_voting_time : Int
  drawing_time : Int
  voting_time : Int
  showcase_time_per_drawing : Int
  allow_spectators : Bool
  private_lobby : Bool
  has_password : Bool
  custom_themes : List String
  enable_chat : Bool
  auto_start_when_ready : Bool
  winner_takes_all : Bool
deriving DecidableEq

/-- Embeds `LobbySettings.to_dict`. -/
def LobbySettings.toDict (s : LobbySettings) : SettingsDict :=
  { max_players := s.max_players
    min_players := s.min_players
    theme_voting_time := s.theme_voting_time
    drawing_time := s.drawing_time
    voting_time := s.voting_time
    showcase_time_per_drawing := s.showcase_time_per_drawing
    allow_spectators := s.allow_spectators
    private_lobby := s.private_lobby
    has_password := s.lobby_password.isSome
    custom_themes := s.custom_themes
    enable_chat := s.enable_chat
    auto_start_when_ready := s.auto_start_when_ready
    winner_takes_all := s.winner_takes_all }

/-- Per-player entry of the snapshot's `players` mapping. -/
structure PlayerEntry where
  player_id : String
  display_name : String
  is_ready : Bool
  is_host : Bool
  score : Int
  has_submitted_drawing : Bool
deriving DecidableEq

/-- Per-spectator entry of the snapshot. -/
structure SpectatorEntry where
  player_id : String
  display_name : String
deriving DecidableEq

/-- The `current_voting_drawing` info block of the snapshot.  Python converts
    the voter set to a list in unspecified iteration order; the set itself is
    kept here. -/
structure CurrentVotingInfo where
  drawing_id : String
  player_id : String
  player_name : String
  data : String
  theme : String
  votes : Int
  current_voters : Finset String
deriving DecidableEq

/-- Entry of `drawings_for_voting`. -/
structure VotingEntry where
  drawing_id : String
  player_id : String
  drawing_data : String
  drawing_theme : String
deriving DecidableEq

/-- Entry of `results`. -/
structure ResultEntry where
  player_id : String
  drawing_id : String
  drawing_data : String
  votes : Int
  player_name : String
deriving DecidableEq

/-- The full dictionary returned by `Lobby.get_lobby_state`.  In the source
    the `"drawings"` entry sits after a `#` comment on the `theme_votes` line
    and is therefore dead code, so it does not appear here.  Dicts keyed by
    player id become association lists in list order; dicts derived from a
    set (`current_voters`) become a `Finset`. -/
structure LobbyStateDict where
  id : String
  lobby_id : String
  host_id : Option String
  players : List (String × PlayerEntry)
  spectators : List (String × SpectatorEntry)
  settings : SettingsDict
  game_status : String
  max_players : Int
  min_players : Int
  timer_end_time : Option Int
  phase_time_remaining : Int
  theme : Option String
  current_drawing_theme : Option String
  current_canvas_color_theme : Option String
  possible_color_themes : List String
  color_theme_votes : String → Int
  theme_votes : List (String × String)
  drawing_votes : List (String × String)
  drawings_for_voting : List VotingEntry
  results : List ResultEntry
  current_showcased_drawing : Option String
  showcase_current_index : Option Nat
  current_voting_drawing : Option CurrentVotingInfo
  current_voting_drawing_index : Option Nat
  voting_display_time_remaining : Int
  current_voters : Finset (String × String)
  created_at : Int

/-- The `display_name` of the participant, or `"Unknown"` when absent. -/
def Lobby.playerNameOrUnknown (L : Lobby) (player_id : String) : String :=
  match L.getPlayer player_id with
  | some p => p.display_name
  | none => "Unknown"

/-- Embeds `Lobby.get_lobby_state`, with `time.time()` passed as `now`.
    `if self.timer_end_time:` is falsy for `None` and `0`; the
    `color_theme_votes` dict outside THEME_VOTING is the empty dict, i.e. the
    default-0 function. -/
def Lobby.getLobbyState (L : Lobby) (now : Int) : LobbyStateDict :=
  let phase_time_remaining : Int :=
    if pyTruthyOptInt L.timer_end_time then
      max 0 ((L.timer_end_time.getD 0) - now)
    else 0
  let voting_display_time_remaining : Int :=
    if pyTruthyOptInt L.voting_display_end_time
        ∧ L.game_status = GameStatus.voting_for_drawings then
      max 0 ((L.voting_display_end_time.getD 0) - now)
    else 0
  let current_voting_drawing := L.getCurrentVotingDrawing
  let current_voting_drawing_info : Option CurrentVotingInfo :=
    current_voting_drawing.map (fun d =>
      { drawing_id := d.drawing_id
        player_id := d.player_id
        player_name := L.playerNameOrUnknown d.player_id
        data := d.drawing_data
        theme := d.drawing_theme
        votes := d.votes
        current_voters := d.current_voters })
  let current_voters_info : Finset (String × String) :=
    match current_voting_drawing with
    | some d => d.current_voters.image (fun v => (v, L.playerNameOrUnknown v))
    | none => ∅
  { id := L.lobby_id
    lobby_id := L.lobby_id
    host_id := L.host_id
    players := L.players.map (fun p =>
      (p.player_id,
       { player_id := p.player_id
         display_name := p.display_name
         is_ready := p.is_ready
         is_host := L.host_id == some p.player_id
         score := p.score
         has_submitted_drawing := p.drawing.isSome }))
    spectators := L.spectators.map (fun p =>
      (p.player_id, { player_id := p.player_id, display_name := p.display_name }))
    settings := L.settings.toDict
    game_status := L.game_status.value
    max_players := L.settings.max_players
    min_players := L.settings.min_players
    timer_end_time := L.timer_end_time
    phase_time_remaining := phase_time_remaining
    theme := L.current_drawing_theme
    current_drawing_theme := L.current_drawing_theme
    current_canvas_color_theme := L.current_canvas_color_theme
    possible_color_themes :=
      if L.game_status = GameStatus.theme_voting then L.possible_color_themes else []
    color_theme_votes :=
      if L.game_status = GameStatus.theme_voting then L.color_theme_votes else fun _ => 0
    theme_votes :=
      if L.game_status = GameStatus.theme_voting then
        (L.players.filter (fun p => pyTruthyOptStr p.color_theme_vote)).map
          (fun p => (p.player_id, p.color_theme_vote.getD ""))
      else []
    drawing_votes :=
      (L.players.filter (fun p => pyTruthyOptStr p.voted_for_drawing_id)).map
        (fun p => (p.player_id, p.voted_for_drawing_id.getD ""))
    drawings_for_voting :=
      if L.game_status = GameStatus.voting_for_drawings then
        L.drawings.map (fun d =>
          { drawing_id := d.drawing_id, player_id := d.player_id
            drawing_data := d.drawing_data, drawing_theme := d.drawing_theme })
      else []
    results :=
      if L.game_status = GameStatus.showcasing_results ∨ L.game_status = GameStatus.ended then
        L.drawings.map (fun d =>
          { player_id := d.player_id, drawing_id := d.drawing_id
            drawing_data := d.drawing_data, votes := d.votes
            player_name := L.playerNameOrUnknown d.player_id })
      else []
    current_showcased_drawing :=
      if L.game_status = GameStatus.showcasing_results ∧ L.drawings ≠ []
          ∧ L.current_showcased_drawing_index < L.drawings.length then
        (L.drawings[L.current_showcased_drawing_index]?).map (fun d => d.drawing_id)
      else none
    showcase_current_index :=
      if L.game_status = GameStatus.showcasing_results then
        some L.current_showcased_drawing_index
      else none
    current_voting_drawing := current_voting_drawing_info
    current_voting_drawing_index :=
      if L.game_status = GameStatus.voting_for_drawings then
        some L.current_voting_drawing_index
      else none
    voting_display_time_remaining := voting_display_time_remaining
    current_voters := current_voters_info
    created_at :=
      if pyTruthyOptInt L.game_start_time then L.game_start_time.getD 0 else now }

/-! ### Pure parts of the websocket_server handlers -/

/-- Number of participants with a submitted drawing
    (`len([p for p in lobby.players if p.drawing is not None])`). -/
def submittedCount (L : Lobby) : Nat :=
  (L.players.filter (fun p => p.drawing.isSome)).length

/-- Pure part of `websocket_server.start_game`: host check, then
    `can_start_game`, then `start_theme_voting`; every error path leaves the
    lobby untouched.  The boolean records whether the game was started. -/
def startGameHandler (L : Lobby) (caller_player_id : String) (now : Int) : Lobby × Bool :=
  if !L.isHost caller_player_id then (L, false)
  else if !L.canStartGame then (L, false)
  else (L.startThemeVoting now, true)

/-- Pure part of `websocket_server.finish_drawing_phase` (runs at the DRAWING
    deadline): at least two participants with a submitted drawing are
    required for `start_voting_phase`; otherwise `end_game`. -/
def finishDrawingPhase (L : Lobby) (now : Int) : Lobby :=
  if 2 ≤ submittedCount L then L.startVotingPhase now
  else L.endGame

/-- Pure part of `websocket_server.handle_drawing_submission`: submit, then
    if every participant has a drawing, start the voting phase early. -/
def handleDrawingSubmission (L : Lobby) (player_id drawing_data did : String) (now : Int) :
    Lobby × Bool :=
  let r := L.submitDrawing player_id drawing_data did
  if !r.2 then (r.1, false)
  else if r.1.players.length ≤ submittedCount r.1 then (r.1.startVotingPhase now, true)
  else (r.1, true)

/-- Embeds `websocket_server.reset_lobby_for_rejoin`: calls `Lobby.end_game` again;
    it never sets the status back to WAITING_FOR_PLAYERS. -/
def resetLobbyForRejoin (L : Lobby) : Lobby :=
  L.endGame

/-- Embeds `websocket_server.end_game`: `lobby.end_game()` followed by
    `reset_lobby_for_rejoin`. -/
def serverEndGame (L : Lobby) : Lobby :=
  resetLobbyForRejoin L.endGame

/-! ### Reachable lobby states -/

/-- One mutating lobby-core operation, as dispatched by the server.  Random
    choices and fresh identifiers are universally quantified parameters; the
    freshness hypothesis on `submitDrawing` models `uuid.uuid4()` never
    colliding with an existing drawing identifier. -/
inductive Step : Lobby → Lobby → Prop where
  | addPlayer (L : Lobby) (pid name : String) :
      Step L (L.addPlayer (Player.init pid name)).1
  | removePlayer (L : Lobby) (pid : String) :
      Step L (L.removePlayer pid)
  | setPlayerReady (L : Lobby) (pid : String) (b : Bool) :
      Step L (L.setPlayerReady pid b)
  | kickPlayer (L : Lobby) (hid tid : String) :
      Step L (L.kickPlayer hid tid).1
  | banPlayer (L : Lobby) (hid tid : String) :
      Step L (L.banPlayer hid tid).1
  | transferHost (L : Lobby) (hid nid : String) :
      Step L (L.transferHost hid nid).1
  | startThemeVoting (L : Lobby) (now : Int) :
      Step L (L.startThemeVoting now)
  | castColorThemeVote (L : Lobby) (pid theme : String) :
      Step L (L.castColorThemeVote pid theme).1
  | startDrawingPhase (L : Lobby) (now : Int) (winTheme prompt : String) :
      Step L (L.startDrawingPhase now winTheme prompt)
  | submitDrawing (L : Lobby) (pid data did : String)
      (hfresh : did ∉ L.drawings.map Drawing.drawing_id) :
      Step L (L.submitDrawing pid data did).1
  | startVotingPhase (L : Lobby) (now : Int) :
      Step L (L.startVotingPhase now)
  | castVote (L : Lobby) (pid did : String) :
      Step L (L.castVote pid did).1
  | advanceVotingDisplay (L : Lobby) (now : Int) :
      Step L (L.advanceVotingDisplay now).1
  | startShowcasingResults (L : Lobby) (now : Int) :
      Step L (L.startShowcasingResults now)
  | nextShowcase (L : Lobby) (now : Int) :
      Step L (L.nextShowcase now).1
  | endGame (L : Lobby) :
      Step L L.endGame

/-- A lobby state reachable from a freshly constructed lobby by any sequence
    of the operations above. -/
def Reachable (L : Lobby) : Prop :=
  ∃ lid : String, ∃ mx mn : Int,
    Relation.ReflTransGen Step (Lobby.init lid mx mn) L

/-- Number of current participants whose color-theme vote is `t`
    (`|{ p : p.vote == t }|` in the spec). -/
def countThemeVotes (ps : List Player) (t : String) : Nat :=
  ps.countP (fun p => p.color_theme_vote == some t)

/-- Number of current participants whose drawing-vote target is `i`
    (`|{ p : p.drawing_vote == i }|` in the spec). -/
def countDrawVotes (ps : List Player) (i : String) : Nat :=
  ps.countP (fun p => p.voted_for_drawing_id == some i)

/-! ### Helper lemmas about `updateFirstBy` -/

theorem updateFirstBy_of_find?_none {α : Type} (q : α → Bool) (f : α → α) :
    ∀ xs : List α, xs.find? q = none → updateFirstBy q f xs = xs := by
  intro xs
  induction xs with
  | nil => intro _; rfl
  | cons a l ih =>
      intro h
      by_cases hq : q a
      · rw [List.find?_cons_of_pos _ hq] at h; exact absurd h (by simp)
      · rw [List.find?_cons_of_neg _ hq] at h
        simp only [updateFirstBy]
        rw [if_neg hq, ih h]

theorem updateFirstBy_decomp {α : Type} (q : α → Bool) (f : α → α) :
    ∀ (xs : List α) (x : α), xs.find? q = some x →
      ∃ s t, xs = s ++ x :: t ∧ (∀ y ∈ s, q y = false) ∧
        updateFirstBy q f xs = s ++ f x :: t := by
  intro xs
  induction xs with
  | nil => intro x h; exact absurd h (by simp)
  | cons a l ih =>
      intro x h
      by_cases hq : q a
      · rw [List.find?_cons_of_pos _ hq] at h
        injection h with h; subst h
        exact ⟨[], l, rfl, by simp, by simp [updateFirstBy, hq]⟩
      · rw [List.find?_cons_of_neg _ hq] at h
        obtain ⟨s, t, hxs, hs, hupd⟩ := ih x h
        refine ⟨a :: s, t, by simp [hxs], ?_, ?_⟩
        · intro y hy
          rcases List.mem_cons.mp hy with h1 | h1
          · subst h1; simpa using hq
          · exact hs y h1
        · simp only [updateFirstBy]
          rw [if_neg hq, hupd, List.cons_append]

theorem countP_updateFirstBy_eq {α : Type} (q : α → Bool) (f : α → α) (pred : α → Bool)
    (hf : ∀ x, pred (f x) = pred x) :
    ∀ xs : List α, (updateFirstBy q f xs).countP pred = xs.countP pred := by
  intro xs
  induction xs with
  | nil => rfl
  | cons a l ih =>
      by_cases hq : q a
      · simp [updateFirstBy, hq, List.countP_cons, hf]
      · simp [updateFirstBy, hq, List.countP_cons, ih]

theorem countP_updateFirstBy_add {α : Type} (q : α → Bool) (f : α → α) (pred : α → Bool)
    (xs : List α) (x : α) (hfind : xs.find? q = some x) :
    ((updateFirstBy q f xs).countP pred : Int)
      = (xs.countP pred : Int) - (if pred x then 1 else 0) + (if pred (f x) then 1 else 0) := by
  obtain ⟨s, t, hxs, _, hupd⟩ := updateFirstBy_decomp q f xs x hfind
  subst hxs
  rw [hupd]
  simp only [List.countP_append, List.countP_cons]
  push_cast
  split_ifs <;> omega

theorem forall_mem_updateFirstBy {α : Type} (q : α → Bool) (f : α → α) (P : α → Prop)
    (xs : List α) (h : ∀ x ∈ xs, P x) (hf : ∀ x ∈ xs, P (f x)) :
    ∀ y ∈ updateFirstBy q f xs, P y := by
  induction xs with
  | nil => intro y hy; simp [updateFirstBy] at hy
  | cons a l ih =>
      intro y hy
      by_cases hq : q a
      · simp only [updateFirstBy, hq, if_true, List.mem_cons] at hy
        rcases hy with rfl | hy
        · exact hf a (by simp)
        · exact h y (by simp [hy])
      · simp only [updateFirstBy] at hy
        rw [if_neg hq] at hy
        rcases List.mem_cons.mp hy with rfl | hy
        · exact h _ (by simp)
        · exact ih (fun x hx => h x (by simp [hx])) (fun x hx => hf x (by simp [hx])) y hy

theorem map_updateFirstBy_eq {α : Type} {β : Type} (q : α → Bool) (f : α → α) (g : α → β)
    (hg : ∀ x, g (f x) = g x) :
    ∀ xs : List α, (updateFirstBy q f xs).map g = xs.map g := by
  intro xs
  induction xs with
  | nil => rfl
  | cons a l ih =>
      by_cases hq : q a
      · simp [updateFirstBy, hq, hg]
      · simp [updateFirstBy, hq, ih]

theorem find?_updateFirstBy_of_disjoint {α : Type} (q1 q2 : α → Bool) (f : α → α)
    (hdisj : ∀ x, q1 x = true → q2 x = false) (hpres : ∀ x, q2 (f x) = q2 x) :
    ∀ xs : List α, (updateFirstBy q1 f xs).find? q2 = xs.find? q2 := by
  intro xs
  induction xs with
  | nil => rfl
  | cons a l ih =>
      by_cases hq : q1 a
      · have h2 : q2 a = false := hdisj a hq
        have h2f : q2 (f a) = false := by rw [hpres]; exact h2
        simp only [updateFirstBy, hq, if_true]
        rw [List.find?_cons_of_neg _ (by simp [h2f]), List.find?_cons_of_neg _ (by simp [h2])]
      · simp only [updateFirstBy]
        rw [if_neg hq]
        by_cases h2 : q2 a
        · rw [List.find?_cons_of_pos _ h2, List.find?_cons_of_pos _ h2]
        · rw [List.find?_cons_of_neg _ h2, List.find?_cons_of_neg _ h2]
          exact ih

theorem find?_updateFirstBy_self {α : Type} (q : α → Bool) (f : α → α)
    (hpres : ∀ x, q (f x) = q x) (xs : List α) (x : α) (hfind : xs.find? q = some x) :
    (updateFirstBy q f xs).find? q = some (f x) := by
  obtain ⟨s, t, _, hs, hupd⟩ := updateFirstBy_decomp q f xs x hfind
  have hx : q x = true := List.find?_some hfind
  rw [hupd]
  have : ∀ s' : List α, (∀ y ∈ s', q y = false) → (s' ++ f x :: t).find? q = some (f x) := by
    intro s'
    induction s' with
    | nil =>
        intro _
        rw [List.nil_append, List.find?_cons_of_pos _ (by rw [hpres]; exact hx)]
    | cons b s'' ih =>
        intro hs'
        rw [List.cons_append, List.find?_cons_of_neg _ (by simp [hs' b (by simp)])]
        exact ih (fun y hy => hs' y (by simp [hy]))
  exact this s hs

theorem mem_updateFirstBy_nodup {α : Type} {β : Type} [DecidableEq β] (g : α → β)
    (q : α → Bool) (f : α → α) (xs : List α) (x : α)
    (hq : ∀ y, q y = (g y == g x))
    (hfind : xs.find? q = some x)
    (hnodup : (xs.map g).Nodup) :
    ∀ y ∈ updateFirstBy q f xs, y = f x ∨ (y ∈ xs ∧ g y ≠ g x) := by
  obtain ⟨s, t, hxs, hs, hupd⟩ := updateFirstBy_decomp q f xs x hfind
  rw [hupd]
  intro y hy
  rcases List.mem_append.mp hy with hy | hy
  · right
    refine ⟨by rw [hxs]; exact List.mem_append.mpr (Or.inl hy), ?_⟩
    have := hs y hy
    rw [hq y] at this
    exact beq_eq_false_iff_ne.mp this
  · rcases List.mem_cons.mp hy with rfl | hy
    · exact Or.inl rfl
    · right
      refine ⟨by rw [hxs]; exact List.mem_append.mpr (Or.inr (List.mem_cons.mpr (Or.inr hy))), ?_⟩
      rw [hxs, List.map_append, List.map_cons] at hnodup
      have hnd := (List.nodup_append.mp hnodup).2.1
      have hnotmem := (List.nodup_cons.mp hnd).1
      intro hgy
      exact hnotmem (hgy ▸ List.mem_map_of_mem g hy)

theorem countThemeVotes_map_eq (f : Player → Player)
    (hf : ∀ p, (f p).color_theme_vote = p.color_theme_vote) (ps : List Player) (t : String) :
    countThemeVotes (ps.map f) t = countThemeVotes ps t := by
  unfold countThemeVotes
  rw [List.countP_map]
  apply List.countP_congr
  intro p _
  simp [Function.comp, hf]

theorem countDrawVotes_map_eq (f : Player → Player)
    (hf : ∀ p, (f p).voted_for_drawing_id = p.voted_for_drawing_id) (ps : List Player) (i : String) :
    countDrawVotes (ps.map f) i = countDrawVotes ps i := by
  unfold countDrawVotes
  rw [List.countP_map]
  apply List.countP_congr
  intro p _
  simp [Function.comp, hf]

theorem mem_updateFirstBy {α : Type} (q : α → Bool) (f : α → α) (xs : List α) :
    ∀ y ∈ updateFirstBy q f xs, y ∈ xs ∨ ∃ x, xs.find? q = some x ∧ y = f x := by
  cases hfind : xs.find? q with
  | none => rw [updateFirstBy_of_find?_none q f xs hfind]; exact fun y hy => Or.inl hy
  | some x =>
      obtain ⟨s, t, hxs, _, hupd⟩ := updateFirstBy_decomp q f xs x hfind
      rw [hupd]
      intro y hy
      rcases List.mem_append.mp hy with hy | hy
      · exact Or.inl (by rw [hxs]; exact List.mem_append.mpr (Or.inl hy))
      · rcases List.mem_cons.mp hy with rfl | hy
        · exact Or.inr ⟨x, rfl, rfl⟩
        · exact Or.inl (by rw [hxs]; exact List.mem_append.mpr (Or.inr (List.mem_cons.mpr (Or.inr hy))))

/-! ### The inductive invariant

`Inv` is preserved by every `Step` and implies the (amended) tally
invariants: each tally is an over-approximation of the live vote count,
with equality breakable only by participant removal (see the
counterexamples below). -/

/-- Inductive invariant over lobby states. -/
structure Inv (L : Lobby) : Prop where
  theme_le : ∀ t, (countThemeVotes L.players t : Int) ≤ L.color_theme_votes t
  waiting_theme_none : L.game_status = GameStatus.waiting_for_players →
    ∀ p ∈ L.players, p.color_theme_vote = none
  votes_nonneg : ∀ d ∈ L.drawings, 0 ≤ d.votes
  draw_le : ∀ d ∈ L.drawings, (countDrawVotes L.players d.drawing_id : Int) ≤ d.votes
  ids_nodup : (L.drawings.map Drawing.drawing_id).Nodup
  drawing_no_votes : L.game_status = GameStatus.drawing →
    ∀ p ∈ L.players, p.voted_for_drawing_id = none

theorem inv_init (lid : String) (mx mn : Int) : Inv (Lobby.init lid mx mn) := by
  constructor <;> simp [Lobby.init, countThemeVotes, countDrawVotes]

/-- Invariant preservation when the participants become a vote-preserving
    image of a sublist, the drawings a sublist, and tally and status are
    unchanged.  Covers removal, kick, ban, host transfer. -/
theorem inv_preserve_aux (L : Lobby) (inv : Inv L) (L' : Lobby)
    (ps0 : List Player) (hsub : ps0.Sublist L.players)
    (f : Player → Player)
    (hf1 : ∀ p, (f p).color_theme_vote = p.color_theme_vote)
    (hf2 : ∀ p, (f p).voted_for_drawing_id = p.voted_for_drawing_id)
    (hplayers : L'.players = ps0.map f)
    (hdraw : L'.drawings.Sublist L.drawings)
    (htally : L'.color_theme_votes = L.color_theme_votes)
    (hstatus : L'.game_status = L.game_status) : Inv L' := by
  constructor
  · intro t
    rw [hplayers, htally, countThemeVotes_map_eq f hf1]
    calc (countThemeVotes ps0 t : Int) ≤ countThemeVotes L.players t := by
          exact_mod_cast List.Sublist.countP_le _ hsub
      _ ≤ L.color_theme_votes t := inv.theme_le t
  · intro hw p hp
    rw [hplayers] at hp
    obtain ⟨p0, hp0, rfl⟩ := List.mem_map.mp hp
    rw [hf1]
    exact inv.waiting_theme_none (hstatus ▸ hw) p0 (hsub.subset hp0)
  · intro d hd
    exact inv.votes_nonneg d (hdraw.subset hd)
  · intro d hd
    rw [hplayers, countDrawVotes_map_eq f hf2]
    calc (countDrawVotes ps0 d.drawing_id : Int) ≤ countDrawVotes L.players d.drawing_id := by
          exact_mod_cast List.Sublist.countP_le _ hsub
      _ ≤ d.votes := inv.draw_le d (hdraw.subset hd)
  · exact List.Nodup.sublist (List.Sublist.map _ hdraw) inv.ids_nodup
  · intro hdst p hp
    rw [hplayers] at hp
    obtain ⟨p0, hp0, rfl⟩ := List.mem_map.mp hp
    rw [hf2]
    exact inv.drawing_no_votes (hstatus ▸ hdst) p0 (hsub.subset hp0)

/-- Invariant preservation when the participants get a single
    vote-preserving first-match update and everything else relevant is
    unchanged.  Covers `set_player_ready`. -/
theorem inv_update_aux (L : Lobby) (inv : Inv L) (L' : Lobby)
    (q : Player → Bool) (f : Player → Player)
    (hf1 : ∀ p, (f p).color_theme_vote = p.color_theme_vote)
    (hf2 : ∀ p, (f p).voted_for_drawing_id = p.voted_for_drawing_id)
    (hplayers : L'.players = updateFirstBy q f L.players)
    (hdraw : L'.drawings = L.drawings)
    (htally : L'.color_theme_votes = L.color_theme_votes)
    (hstatus : L'.game_status = L.game_status) : Inv L' := by
  constructor
  · intro t
    rw [hplayers, htally]
    unfold countThemeVotes
    rw [countP_updateFirstBy_eq _ _ _ (by intro x; simp [hf1])]
    exact inv.theme_le t
  · intro hw p hp
    rw [hplayers] at hp
    refine forall_mem_updateFirstBy q f (fun x => x.color_theme_vote = none) L.players ?_ ?_ p hp
    · exact inv.waiting_theme_none (hstatus ▸ hw)
    · intro x hx
      rw [hf1]
      exact inv.waiting_theme_none (hstatus ▸ hw) x hx
  · intro d hd
    exact inv.votes_nonneg d (hdraw ▸ hd)
  · intro d hd
    rw [hplayers]
    unfold countDrawVotes
    rw [countP_updateFirstBy_eq _ _ _ (by intro x; simp [hf2])]
    exact inv.draw_le d (hdraw ▸ hd)
  · rw [hdraw]; exact inv.ids_nodup
  · intro hdst p hp
    rw [hplayers] at hp
    refine forall_mem_updateFirstBy q f (fun x => x.voted_for_drawing_id = none) L.players ?_ ?_ p hp
    · exact inv.drawing_no_votes (hstatus ▸ hdst)
    · intro x hx
      rw [hf2]
      exact inv.drawing_no_votes (hstatus ▸ hdst) x hx

theorem canPlayerJoin_true_status (L : Lobby) (pid : String)
    (h : (L.canPlayerJoin pid).1 = true) :
    L.game_status = GameStatus.waiting_for_players := by
  unfold Lobby.canPlayerJoin at h
  split_ifs at h <;> simp_all

/-- Invariant transfer when no relevant field changed. -/
theorem inv_of_fields (L L' : Lobby)
    (h1 : L'.players = L.players) (h2 : L'.drawings = L.drawings)
    (h3 : L'.color_theme_votes = L.color_theme_votes) (h4 : L'.game_status = L.game_status)
    (inv : Inv L) : Inv L' := by
  constructor
  · intro t; rw [h1, h3]; exact inv.theme_le t
  · intro hw; rw [h1]; exact inv.waiting_theme_none (h4 ▸ hw)
  · intro d hd; exact inv.votes_nonneg d (h2 ▸ hd)
  · intro d hd; rw [h1]; exact inv.draw_le d (h2 ▸ hd)
  · rw [h2]; exact inv.ids_nodup
  · intro hdst; rw [h1]; exact inv.drawing_no_votes (h4 ▸ hdst)

/-- Invariant preservation for appending a freshly constructed participant,
    possibly followed by a host reassignment.  Covers `add_player`. -/
theorem inv_append_aux (L : Lobby) (inv : Inv L) (L' : Lobby) (pid name : String)
    (f : Player → Player)
    (hf1 : ∀ p, (f p).color_theme_vote = p.color_theme_vote)
    (hf2 : ∀ p, (f p).voted_for_drawing_id = p.voted_for_drawing_id)
    (hplayers : L'.players = (L.players ++ [Player.init pid name]).map f)
    (hdraw : L'.drawings = L.drawings)
    (htally : L'.color_theme_votes = L.color_theme_votes)
    (hstatus : L'.game_status = L.game_status) : Inv L' := by
  have hthm : ∀ t, countThemeVotes L'.players t = countThemeVotes L.players t := by
    intro t
    rw [hplayers, countThemeVotes_map_eq f hf1]
    unfold countThemeVotes
    rw [List.countP_append]
    simp [Player.init]
  have hdrw : ∀ i, countDrawVotes L'.players i = countDrawVotes L.players i := by
    intro i
    rw [hplayers, countDrawVotes_map_eq f hf2]
    unfold countDrawVotes
    rw [List.countP_append]
    simp [Player.init]
  constructor
  · intro t; rw [hthm, htally]; exact inv.theme_le t
  · intro hw p hp
    rw [hplayers] at hp
    obtain ⟨p0, hp0, rfl⟩ := List.mem_map.mp hp
    rw [hf1]
    rcases List.mem_append.mp hp0 with h0 | h0
    · exact inv.waiting_theme_none (hstatus ▸ hw) p0 h0
    · simp only [List.mem_singleton] at h0
      subst h0; rfl
  · intro d hd; exact inv.votes_nonneg d (hdraw ▸ hd)
  · intro d hd; rw [hdrw]; exact inv.draw_le d (hdraw ▸ hd)
  · rw [hdraw]; exact inv.ids_nodup
  · intro hdst p hp
    rw [hplayers] at hp
    obtain ⟨p0, hp0, rfl⟩ := List.mem_map.mp hp
    rw [hf2]
    rcases List.mem_append.mp hp0 with h0 | h0
    · exact inv.drawing_no_votes (hstatus ▸ hdst) p0 h0
    · simp only [List.mem_singleton] at h0
      subst h0; rfl

theorem inv_endGame (L : Lobby) : Inv L.endGame := by
  constructor
  · intro t
    simp [Lobby.endGame, countThemeVotes, List.countP_map, List.countP_eq_zero]
  · intro _ p hp
    simp only [Lobby.endGame] at hp
    obtain ⟨p0, _, rfl⟩ := List.mem_map.mp hp
    rfl
  · intro d hd
    simp [Lobby.endGame] at hd
  · intro d hd
    simp [Lobby.endGame] at hd
  · simp [Lobby.endGame]
  · intro h
    simp [Lobby.endGame] at h

theorem inv_removePlayer (L : Lobby) (pid : String) (inv : Inv L) : Inv (L.removePlayer pid) := by
  simp only [Lobby.removePlayer]
  have hsub : (L.players.filter (fun p => p.player_id != pid)).Sublist L.players :=
    List.filter_sublist _
  split_ifs
  · refine inv_preserve_aux L inv _ (L.players.filter (fun p => p.player_id != pid)) hsub
      (fun p => { p with is_host := p.player_id == (L.players.filter (fun p => p.player_id != pid)).headI.player_id })
      (fun _ => rfl) (fun _ => rfl) (by simp [Lobby.setHost]) (List.filter_sublist _) rfl rfl
  · refine inv_preserve_aux L inv _ (L.players.filter (fun p => p.player_id != pid)) hsub
      (fun p => { p with is_host := p.player_id == (L.players.filter (fun p => p.player_id != pid)).headI.player_id })
      (fun _ => rfl) (fun _ => rfl) (by simp [Lobby.setHost]) (List.Sublist.refl _) rfl rfl
  · refine inv_preserve_aux L inv _ (L.players.filter (fun p => p.player_id != pid)) hsub
      id (fun _ => rfl) (fun _ => rfl) (by simp) (List.filter_sublist _) rfl rfl
  · refine inv_preserve_aux L inv _ (L.players.filter (fun p => p.player_id != pid)) hsub
      id (fun _ => rfl) (fun _ => rfl) (by simp) (List.Sublist.refl _) rfl rfl
  · refine inv_preserve_aux L inv _ (L.players.filter (fun p => p.player_id != pid)) hsub
      id (fun _ => rfl) (fun _ => rfl) (by simp) (List.filter_sublist _) rfl rfl
  · refine inv_preserve_aux L inv _ (L.players.filter (fun p => p.player_id != pid)) hsub
      id (fun _ => rfl) (fun _ => rfl) (by simp) (List.Sublist.refl _) rfl rfl

theorem inv_kickPlayer (L : Lobby) (hid tid : String) (inv : Inv L) :
    Inv (L.kickPlayer hid tid).1 := by
  simp only [Lobby.kickPlayer]
  split
  · exact inv
  · split
    · exact inv
    · split
      · exact inv
      · refine inv_preserve_aux L inv _ (L.players.eraseP (fun q => q.player_id == tid))
          (List.eraseP_sublist _) id (fun _ => rfl) (fun _ => rfl) (by simp)
          (List.Sublist.refl _) rfl rfl

theorem inv_banPlayer (L : Lobby) (hid tid : String) (inv : Inv L) :
    Inv (L.banPlayer hid tid).1 := by
  simp only [Lobby.banPlayer]
  split
  · exact inv
  · split
    · exact inv
    · split
      · exact inv
      · refine inv_preserve_aux L inv _ (L.players.eraseP (fun q => q.player_id == tid))
          (List.eraseP_sublist _) id (fun _ => rfl) (fun _ => rfl) (by simp)
          (List.Sublist.refl _) rfl rfl

theorem inv_transferHost (L : Lobby) (hid nid : String) (inv : Inv L) :
    Inv (L.transferHost hid nid).1 := by
  simp only [Lobby.transferHost]
  split
  · exact inv
  · split
    · refine inv_preserve_aux L inv _ L.players (List.Sublist.refl _)
        (fun p => { p with is_host := p.player_id == nid })
        (fun _ => rfl) (fun _ => rfl) (by simp [Lobby.setHost]) (List.Sublist.refl _) rfl rfl
    · exact inv

theorem inv_setPlayerReady (L : Lobby) (pid : String) (b : Bool) (inv : Inv L) :
    Inv (L.setPlayerReady pid b) := by
  simp only [Lobby.setPlayerReady]
  split
  · exact inv
  · exact inv_update_aux L inv _ (fun p => p.player_id == pid)
      (fun p => { p with is_ready := b }) (fun _ => rfl) (fun _ => rfl) rfl rfl rfl rfl

theorem inv_addPlayer (L : Lobby) (pid name : String) (inv : Inv L) :
    Inv (L.addPlayer (Player.init pid name)).1 := by
  simp only [Lobby.addPlayer]
  split
  · exact inv
  · split
    · split
      · refine inv_append_aux L inv _ pid name
          (fun p => { p with is_host := p.player_id == (Player.init pid name).player_id })
          (fun _ => rfl) (fun _ => rfl) (by simp [Lobby.setHost]) rfl rfl rfl
      · refine inv_append_aux L inv _ pid name id (fun _ => rfl) (fun _ => rfl)
          (by simp) rfl rfl rfl
    · exact inv

theorem inv_startThemeVoting (L : Lobby) (now : Int) (inv : Inv L) :
    Inv (L.startThemeVoting now) := by
  simp only [Lobby.startThemeVoting]
  split
  case isTrue h =>
    constructor
    · intro t
      have h0 : countThemeVotes L.players t = 0 := by
        rw [countThemeVotes, List.countP_eq_zero]
        intro p hp
        simp [inv.waiting_theme_none h.1 p hp]
      show ((countThemeVotes L.players t : Nat) : Int) ≤ 0
      simp [h0]
    · exact fun hw' => by simp at hw'
    · exact inv.votes_nonneg
    · exact inv.draw_le
    · exact inv.ids_nodup
    · exact fun hd' => by simp at hd'
  case isFalse => exact inv

theorem inv_startDrawingPhase (L : Lobby) (now : Int) (winTheme prompt : String) (inv : Inv L) :
    Inv (L.startDrawingPhase now winTheme prompt) := by
  simp only [Lobby.startDrawingPhase]
  split
  case isTrue h =>
    constructor
    · intro t
      have heq := countThemeVotes_map_eq
        (fun p => { p with drawing := none, voted_for_drawing_id := none })
        (fun _ => rfl) L.players t
      show ((countThemeVotes _ t : Nat) : Int) ≤ L.color_theme_votes t
      rw [heq]
      exact inv.theme_le t
    · exact fun hw' => by simp at hw'
    · intro d hd; simp at hd
    · intro d hd; simp at hd
    · simp
    · intro _ p hp
      obtain ⟨p0, _, rfl⟩ := List.mem_map.mp hp
      rfl
  case isFalse => exact inv

theorem inv_advanceVotingDisplay (L : Lobby) (now : Int) (inv : Inv L) :
    Inv (L.advanceVotingDisplay now).1 := by
  simp only [Lobby.advanceVotingDisplay]
  split
  · exact inv
  · split
    · exact inv_of_fields L _ rfl rfl rfl rfl inv
    · exact inv_of_fields L _ rfl rfl rfl rfl inv

theorem inv_nextShowcase (L : Lobby) (now : Int) (inv : Inv L) :
    Inv (L.nextShowcase now).1 := by
  simp only [Lobby.nextShowcase]
  split
  · split
    · exact inv_of_fields L _ rfl rfl rfl rfl inv
    · exact inv_endGame _
  · exact inv

theorem getCurrentVotingDrawing_some (L : Lobby) (cd : Drawing)
    (h : L.getCurrentVotingDrawing = some cd) :
    L.game_status = GameStatus.voting_for_drawings ∧ cd ∈ L.drawings := by
  unfold Lobby.getCurrentVotingDrawing at h
  split at h
  case isTrue hg =>
      refine ⟨hg.1, ?_⟩
      obtain ⟨hn, rfl⟩ := List.getElem?_eq_some_iff.mp h
      exact List.getElem_mem _
  case isFalse => exact absurd h (by simp)

theorem inv_castColorThemeVote (L : Lobby) (pid theme : String) (inv : Inv L) :
    Inv (L.castColorThemeVote pid theme).1 := by
  simp only [Lobby.castColorThemeVote]
  split
  · exact inv
  case h_2 player hplayer =>
    split
    case isFalse => exact inv
    case isTrue hcond =>
      have hst : L.game_status = GameStatus.theme_voting := hcond.1
      have hfind : L.players.find? (fun p => p.player_id == pid) = some player := hplayer
      constructor
      · intro t
        have hcnt := countP_updateFirstBy_add (fun p => p.player_id == pid)
            (fun p => { p with color_theme_vote := some theme })
            (fun p => p.color_theme_vote == some t) L.players player hfind
        have hle := inv.theme_le t
        unfold countThemeVotes at hle
        show ((List.countP (fun p => p.color_theme_vote == some t)
            (updateFirstBy (fun p => p.player_id == pid)
              (fun p => { p with color_theme_vote := some theme }) L.players) : Nat) : Int)
          ≤ incTally (decTally L.color_theme_votes player.color_theme_vote) theme t
        simp only [beq_iff_eq, Option.some.injEq] at hcnt
        rw [hcnt]
        rcases hv : player.color_theme_vote with _ | v0
        · by_cases ht : t = theme
          · subst ht
            simp [incTally, decTally] <;> omega
          · simp [incTally, decTally, ht, Ne.symm ht] <;> omega
        · by_cases hv0 : v0 = ""
          · subst hv0
            by_cases ht : t = theme
            · subst ht
              simp [incTally, decTally] <;> split_ifs <;> omega
            · simp [incTally, decTally, ht, Ne.symm ht] <;> split_ifs <;> omega
          · by_cases ht : t = theme
            · subst ht
              by_cases hveq : v0 = t
              · subst hveq
                simp [incTally, decTally, hv0] <;> omega
              · simp [incTally, decTally, hv0, hveq, Ne.symm hveq] <;> omega
            · by_cases hveq : v0 = t
              · subst hveq
                simp [incTally, decTally, hv0, ht, Ne.symm ht] <;> omega
              · simp [incTally, decTally, hv0, ht, hveq, Ne.symm ht, Ne.symm hveq] <;> omega
      · exact fun hw' => absurd (hst.symm.trans hw') (by decide)
      · exact inv.votes_nonneg
      · intro d hd
        have hcnt := countP_updateFirstBy_eq (fun p => p.player_id == pid)
            (fun p => { p with color_theme_vote := some theme })
            (fun p => p.voted_for_drawing_id == some d.drawing_id) (fun _ => rfl) L.players
        show ((List.countP (fun p => p.voted_for_drawing_id == some d.drawing_id)
            (updateFirstBy (fun p => p.player_id == pid)
              (fun p => { p with color_theme_vote := some theme }) L.players) : Nat) : Int)
          ≤ d.votes
        rw [hcnt]
        exact inv.draw_le d hd
      · exact inv.ids_nodup
      · exact fun hd' => absurd (hst.symm.trans hd') (by decide)

theorem inv_submitDrawing (L : Lobby) (pid data did : String)
    (hfresh : did ∉ L.drawings.map Drawing.drawing_id) (inv : Inv L) :
    Inv (L.submitDrawing pid data did).1 := by
  simp only [Lobby.submitDrawing]
  split
  case h_2 => exact inv
  case h_1 player theme0 hplayer htheme =>
    split
    case isFalse => exact inv
    case isTrue hst =>
      have hcount0 : ∀ i, countDrawVotes L.players i = 0 := by
        intro i
        rw [countDrawVotes, List.countP_eq_zero]
        intro p hp
        simp [inv.drawing_no_votes hst p hp]
      constructor
      · intro t
        have hcnt := countP_updateFirstBy_eq (fun p => p.player_id == pid)
            (fun p => { p with drawing := some did })
            (fun p => p.color_theme_vote == some t) (fun _ => rfl) L.players
        show ((List.countP (fun p => p.color_theme_vote == some t)
            (updateFirstBy (fun p => p.player_id == pid)
              (fun p => { p with drawing := some did }) L.players) : Nat) : Int)
          ≤ L.color_theme_votes t
        rw [hcnt]
        exact inv.theme_le t
      · exact fun hw' => absurd (hst.symm.trans hw') (by decide)
      · intro d hd
        rcases List.mem_append.mp hd with h0 | h0
        · exact inv.votes_nonneg d h0
        · simp only [List.mem_singleton] at h0
          subst h0
          exact le_refl 0
      · intro d hd
        have hcnt := countP_updateFirstBy_eq (fun p => p.player_id == pid)
            (fun p => { p with drawing := some did })
            (fun p => p.voted_for_drawing_id == some d.drawing_id) (fun _ => rfl) L.players
        show ((List.countP (fun p => p.voted_for_drawing_id == some d.drawing_id)
            (updateFirstBy (fun p => p.player_id == pid)
              (fun p => { p with drawing := some did }) L.players) : Nat) : Int)
          ≤ d.votes
        rw [hcnt]
        rcases List.mem_append.mp hd with h0 | h0
        · exact inv.draw_le d h0
        · simp only [List.mem_singleton] at h0
          subst h0
          have := hcount0 did
          unfold countDrawVotes at this
          simp [this]
      · show ((L.drawings ++ [({ drawing_id := did, player_id := pid, drawing_data := data
                                 drawing_theme := theme0, votes := 0,
                                 current_voters := ∅ } : Drawing)]).map Drawing.drawing_id).Nodup
        rw [List.map_append, List.nodup_append]
        refine ⟨inv.ids_nodup, by simp, ?_⟩
        intro x hx hmem
        simp only [List.map_cons, List.map_nil, List.mem_singleton] at hmem
        subst hmem
        exact hfresh hx
      · intro hd' p hp
        exact forall_mem_updateFirstBy _ _ (fun x => x.voted_for_drawing_id = none) L.players
          (inv.drawing_no_votes hst) (fun x hx => inv.drawing_no_votes hst x hx) p hp

theorem inv_startVotingPhase (L : Lobby) (now : Int) (inv : Inv L) :
    Inv (L.startVotingPhase now) := by
  simp only [Lobby.startVotingPhase]
  split
  case isFalse => exact inv
  case isTrue h =>
    constructor
    · intro t
      have heq := countThemeVotes_map_eq (fun p => { p with voted_for_drawing_id := none })
        (fun _ => rfl) L.players t
      show ((countThemeVotes (L.players.map (fun p => { p with voted_for_drawing_id := none })) t : Nat) : Int)
        ≤ L.color_theme_votes t
      rw [heq]
      exact inv.theme_le t
    · exact fun hw' => by simp at hw'
    · intro d hd
      obtain ⟨d0, hd0, rfl⟩ := List.mem_map.mp hd
      exact inv.votes_nonneg d0 hd0
    · intro d hd
      have h0 : countDrawVotes (L.players.map (fun p => { p with voted_for_drawing_id := none })) d.drawing_id = 0 := by
        rw [countDrawVotes, List.countP_eq_zero]
        intro p hp
        obtain ⟨p0, _, rfl⟩ := List.mem_map.mp hp
        simp
      show ((countDrawVotes (L.players.map (fun p => { p with voted_for_drawing_id := none })) d.drawing_id : Nat) : Int)
        ≤ d.votes
      rw [h0]
      obtain ⟨d0, hd0, rfl⟩ := List.mem_map.mp hd
      exact inv.votes_nonneg d0 hd0
    · show ((L.drawings.map (fun d => { d with current_voters := (∅ : Finset String) })).map Drawing.drawing_id).Nodup
      rw [List.map_map]
      exact inv.ids_nodup
    · exact fun hd' => by simp at hd'

/-- Invariant preservation for the success path of `cast_vote`, abstracted
    over the intermediate drawings list `drawings1` (the original list, or
    the original list with the prior vote's drawing decremented). -/
theorem inv_castVote_success (L : Lobby) (pid did : String) (inv : Inv L)
    (voter : Player)
    (hfindP : L.players.find? (fun p => p.player_id == pid) = some voter)
    (hvne : voter.voted_for_drawing_id ≠ some did)
    (target : Drawing)
    (htargetmem : target ∈ L.drawings)
    (htargetid : target.drawing_id = did)
    (hst : L.game_status = GameStatus.voting_for_drawings)
    (drawings1 : List Drawing)
    (ids1 : drawings1.map Drawing.drawing_id = L.drawings.map Drawing.drawing_id)
    (hfind1 : drawings1.find? (fun d => d.drawing_id == did) = some target)
    (nonneg1 : ∀ d ∈ drawings1, 0 ≤ d.votes)
    (bound1 : ∀ d ∈ drawings1, d.drawing_id ≠ did →
      (List.countP (fun p => p.voted_for_drawing_id == some d.drawing_id) L.players : Int)
        - (if voter.voted_for_drawing_id = some d.drawing_id then 1 else 0) ≤ d.votes)
    (L' : Lobby)
    (hplayers : L'.players = updateFirstBy (fun p => p.player_id == pid)
        (fun p => { p with voted_for_drawing_id := some did }) L.players)
    (hdrawings : L'.drawings = updateFirstBy (fun d => d.drawing_id == did)
        (fun d => { d with votes := d.votes + 1
                           current_voters := insert pid d.current_voters }) drawings1)
    (htally : L'.color_theme_votes = L.color_theme_votes)
    (hstatus : L'.game_status = L.game_status) : Inv L' := by
  have hcntD : ∀ i : String,
      ((List.countP (fun p => p.voted_for_drawing_id == some i)
        (updateFirstBy (fun p => p.player_id == pid)
          (fun p => { p with voted_for_drawing_id := some did }) L.players) : Nat) : Int)
      = (List.countP (fun p => p.voted_for_drawing_id == some i) L.players : Int)
        - (if voter.voted_for_drawing_id = some i then 1 else 0)
        + (if did = i then 1 else 0) := by
    intro i
    have h0 := countP_updateFirstBy_add (fun p => p.player_id == pid)
        (fun p => { p with voted_for_drawing_id := some did })
        (fun p => p.voted_for_drawing_id == some i) L.players voter hfindP
    simpa [beq_iff_eq] using h0
  have hnodup1 : (drawings1.map Drawing.drawing_id).Nodup := ids1 ▸ inv.ids_nodup
  constructor
  · intro t
    rw [hplayers, htally]
    unfold countThemeVotes
    rw [countP_updateFirstBy_eq (fun p : Player => p.player_id == pid)
      (fun p : Player => { p with voted_for_drawing_id := some did })
      (fun p : Player => p.color_theme_vote == some t) (fun _ => rfl)]
    exact inv.theme_le t
  · exact fun hw' => absurd ((hstatus.trans hst).symm.trans hw') (by decide)
  · intro d hd
    rw [hdrawings] at hd
    refine forall_mem_updateFirstBy _ _ (fun x => 0 ≤ x.votes) drawings1 nonneg1 ?_ d hd
    intro x hx
    have h0 := nonneg1 x hx
    show 0 ≤ x.votes + 1
    omega
  · intro d hd
    rw [hdrawings] at hd
    rw [hplayers]
    unfold countDrawVotes
    rw [hcntD d.drawing_id]
    have hmem := mem_updateFirstBy_nodup Drawing.drawing_id
        (fun d => d.drawing_id == did)
        (fun d => { d with votes := d.votes + 1, current_voters := insert pid d.current_voters })
        drawings1 target (fun y => by rw [htargetid]) hfind1
        hnodup1 d hd
    rcases hmem with rfl | ⟨hmem1, hne1⟩
    · have hb := inv.draw_le target htargetmem
      unfold countDrawVotes at hb
      rw [htargetid] at hb
      show (List.countP (fun p => p.voted_for_drawing_id == some target.drawing_id) L.players : Int)
          - (if voter.voted_for_drawing_id = some target.drawing_id then 1 else 0)
          + (if did = target.drawing_id then 1 else 0) ≤ target.votes + 1
      rw [htargetid, if_neg hvne, if_pos rfl]
      omega
    · have hne2 : d.drawing_id ≠ did := by rw [← htargetid]; exact hne1
      have hb := bound1 d hmem1 hne2
      rw [if_neg (show ¬did = d.drawing_id from fun h0 => hne2 h0.symm)]
      split_ifs at hb ⊢ <;> omega
  · rw [hdrawings]
    rw [map_updateFirstBy_eq (fun d => d.drawing_id == did)
      (fun d => { d with votes := d.votes + 1, current_voters := insert pid d.current_voters })
      Drawing.drawing_id (fun x => rfl), ids1]
    exact inv.ids_nodup
  · exact fun hd' => absurd ((hstatus.trans hst).symm.trans hd') (by decide)

theorem inv_castVote (L : Lobby) (pid did : String) (inv : Inv L) :
    Inv (L.castVote pid did).1 := by
  simp only [Lobby.castVote]
  split
  · exact inv
  case h_2 voter hvoter =>
    split
    · exact inv
    case h_2 cd hcd =>
      split
      case isTrue => exact inv
      case isFalse hne =>
        split
        case isTrue => exact inv
        case isFalse hvoted =>
          split
          · exact inv
          case h_2 target htarget =>
            split
            case isFalse => exact inv
            case isTrue hauthor =>
              have hfindP : L.players.find? (fun p => p.player_id == pid) = some voter := hvoter
              obtain ⟨hst, hcdmem⟩ := getCurrentVotingDrawing_some L cd hcd
              have htargetmem : target ∈ L.drawings := List.mem_of_find?_eq_some htarget
              have htargetid : target.drawing_id = did := by
                have h0 := List.find?_some htarget
                simpa [beq_iff_eq] using h0
              have hvne : voter.voted_for_drawing_id ≠ some did := by
                intro hcontr
                exact hvoted (by simp [hcontr])
              by_cases hpt : pyTruthyOptStr voter.voted_for_drawing_id = true
              · rw [if_pos hpt]
                cases hfp : L.drawings.find? (fun d => some d.drawing_id == voter.voted_for_drawing_id) with
                | none =>
                    rw [updateFirstBy_of_find?_none _ _ _ hfp]
                    refine inv_castVote_success L pid did inv voter hfindP hvne target htargetmem
                      htargetid hst L.drawings rfl htarget inv.votes_nonneg ?_ _ rfl rfl rfl rfl
                    intro d hdm _
                    have hb := inv.draw_le d hdm
                    unfold countDrawVotes at hb
                    split_ifs <;> omega
                | some pd =>
                    have hpdid : some pd.drawing_id = voter.voted_for_drawing_id := by
                      have h0 := List.find?_some hfp
                      simpa [beq_iff_eq] using h0
                    have hpdmem : pd ∈ L.drawings := List.mem_of_find?_eq_some hfp
                    have hpdne : pd.drawing_id ≠ did := by
                      intro h0
                      exact hvne (by rw [← hpdid, h0])
                    have hfind1 : (updateFirstBy (fun d => some d.drawing_id == voter.voted_for_drawing_id)
                        (fun d => { d with votes := max 0 (d.votes - 1)
                                           current_voters := d.current_voters.erase pid }) L.drawings).find?
                          (fun d => d.drawing_id == did) = some target := by
                      rw [find?_updateFirstBy_of_disjoint
                        (fun d : Drawing => some d.drawing_id == voter.voted_for_drawing_id)
                        (fun d : Drawing => d.drawing_id == did)
                        (fun d : Drawing => { d with votes := max 0 (d.votes - 1)
                                                     current_voters := d.current_voters.erase pid })
                        ?_ (fun x => rfl)]
                      · exact htarget
                      · intro x hx
                        have hxid : some x.drawing_id = voter.voted_for_drawing_id := by
                          simpa [beq_iff_eq] using hx
                        have hxne : x.drawing_id ≠ did := by
                          intro h0
                          exact hvne (by rw [← hxid, h0])
                        simp [beq_iff_eq, hxne]
                    refine inv_castVote_success L pid did inv voter hfindP hvne target htargetmem
                      htargetid hst _
                      (map_updateFirstBy_eq (fun d => some d.drawing_id == voter.voted_for_drawing_id)
                        (fun d => { d with votes := max 0 (d.votes - 1)
                                           current_voters := d.current_voters.erase pid })
                        Drawing.drawing_id (fun x => rfl) L.drawings)
                      hfind1 ?_ ?_ _ rfl rfl rfl rfl
                    · refine forall_mem_updateFirstBy _ _ (fun x => 0 ≤ x.votes) L.drawings
                        inv.votes_nonneg ?_
                      intro x _
                      exact le_max_left 0 _
                    · intro d hdm hdne
                      have hmem := mem_updateFirstBy_nodup Drawing.drawing_id
                          (fun d => some d.drawing_id == voter.voted_for_drawing_id)
                          (fun d => { d with votes := max 0 (d.votes - 1)
                                             current_voters := d.current_voters.erase pid })
                          L.drawings pd (fun y => by rw [← hpdid]; rfl) hfp inv.ids_nodup d hdm
                      rcases hmem with rfl | ⟨hdm0, hdne0⟩
                      · have hb := inv.draw_le pd hpdmem
                        unfold countDrawVotes at hb
                        show (List.countP (fun p => p.voted_for_drawing_id == some pd.drawing_id) L.players : Int)
                            - (if voter.voted_for_drawing_id = some pd.drawing_id then 1 else 0)
                            ≤ max 0 (pd.votes - 1)
                        rw [if_pos hpdid.symm]
                        rcases max_cases 0 (pd.votes - 1) with ⟨hmx, _⟩ | ⟨hmx, _⟩ <;> rw [hmx] <;> omega
                      · have hb := inv.draw_le d hdm0
                        unfold countDrawVotes at hb
                        split_ifs <;> omega
              · rw [if_neg hpt]
                refine inv_castVote_success L pid did inv voter hfindP hvne target htargetmem
                  htargetid hst L.drawings rfl htarget inv.votes_nonneg ?_ _ rfl rfl rfl rfl
                intro d hdm _
                have hb := inv.draw_le d hdm
                unfold countDrawVotes at hb
                split_ifs <;> omega

theorem inv_startShowcasingResults (L : Lobby) (now : Int) (inv : Inv L) :
    Inv (L.startShowcasingResults now) := by
  simp only [Lobby.startShowcasingResults]
  split
  case isTrue h =>
    have hperm : (L.drawings.mergeSort (fun a b => b.votes ≤ a.votes)).Perm L.drawings :=
      List.mergeSort_perm _ _
    constructor
    · intro t; exact inv.theme_le t
    · exact fun hw' => by simp at hw'
    · intro d hd; exact inv.votes_nonneg d (hperm.subset hd)
    · intro d hd; exact inv.draw_le d (hperm.subset hd)
    · exact ((hperm.map Drawing.drawing_id).nodup_iff).mpr inv.ids_nodup
    · exact fun hd' => by simp at hd'
  case isFalse => exact inv

theorem inv_step (L L' : Lobby) (h : Step L L') (inv : Inv L) : Inv L' := by
  cases h with
  | addPlayer pid name => exact inv_addPlayer L pid name inv
  | removePlayer pid => exact inv_removePlayer L pid inv
  | setPlayerReady pid b => exact inv_setPlayerReady L pid b inv
  | kickPlayer hid tid => exact inv_kickPlayer L hid tid inv
  | banPlayer hid tid => exact inv_banPlayer L hid tid inv
  | transferHost hid nid => exact inv_transferHost L hid nid inv
  | startThemeVoting now => exact inv_startThemeVoting L now inv
  | castColorThemeVote pid theme => exact inv_castColorThemeVote L pid theme inv
  | startDrawingPhase now w p => exact inv_startDrawingPhase L now w p inv
  | submitDrawing pid data did hfresh => exact inv_submitDrawing L pid data did hfresh inv
  | startVotingPhase now => exact inv_startVotingPhase L now inv
  | castVote pid did => exact inv_castVote L pid did inv
  | advanceVotingDisplay now => exact inv_advanceVotingDisplay L now inv
  | startShowcasingResults now => exact inv_startShowcasingResults L now inv
  | nextShowcase now => exact inv_nextShowcase L now inv
  | endGame => exact inv_endGame L

theorem inv_reachable (L : Lobby) (h : Reachable L) : Inv L := by
  obtain ⟨lid, mx, mn, hr⟩ := h
  induction hr with
  | refl => exact inv_init lid mx mn
  | tail _ hstep ih => exact inv_step _ _ hstep ih

/-! ### Concrete scenario lobbies

A two-participant lobby driven through the game phases by the operations
above; used as concrete inputs for the claim theorems. -/

def exL0 : Lobby := Lobby.init "L" 20 2
def exLA : Lobby := (exL0.addPlayer (Player.init "A" "Alice")).1
def exLAB : Lobby := (exLA.addPlayer (Player.init "B" "Bob")).1
def exTheme : Lobby := exLAB.startThemeVoting 0
def exThemeVote : Lobby := (exTheme.castColorThemeVote "A" "Nature").1
def exC1 : Lobby := exThemeVote.removePlayer "A"
def exDraw : Lobby := exTheme.startDrawingPhase 0 "Nature" "A dream you had"
def exDrawA : Lobby := (exDraw.submitDrawing "A" "imgA" "dA").1
def exDrawAB : Lobby := (exDrawA.submitDrawing "B" "imgB" "dB").1
def exVote : Lobby := exDrawAB.startVotingPhase 5
def exVoteB : Lobby := (exVote.castVote "B" "dA").1
def exC2 : Lobby := exVoteB.removePlayer "B"
def exReadyAB : Lobby := (exLAB.setPlayerReady "A" true).setPlayerReady "B" true
def exReadyA : Lobby := exLA.setPlayerReady "A" true

theorem reach_exLAB : Relation.ReflTransGen Step exL0 exLAB :=
  Relation.ReflTransGen.tail
    (Relation.ReflTransGen.tail Relation.ReflTransGen.refl (Step.addPlayer exL0 "A" "Alice"))
    (Step.addPlayer exLA "B" "Bob")

theorem reach_exTheme : Relation.ReflTransGen Step exL0 exTheme :=
  Relation.ReflTransGen.tail reach_exLAB (Step.startThemeVoting exLAB 0)

theorem reach_exC1 : Reachable exC1 :=
  ⟨"L", 20, 2,
    Relation.ReflTransGen.tail
      (Relation.ReflTransGen.tail reach_exTheme (Step.castColorThemeVote exTheme "A" "Nature"))
      (Step.removePlayer exThemeVote "A")⟩

theorem reach_exDraw : Relation.ReflTransGen Step exL0 exDraw :=
  Relation.ReflTransGen.tail reach_exTheme
    (Step.startDrawingPhase exTheme 0 "Nature" "A dream you had")

theorem reach_exDrawA : Relation.ReflTransGen Step exL0 exDrawA :=
  Relation.ReflTransGen.tail reach_exDraw
    (Step.submitDrawing exDraw "A" "imgA" "dA" (by decide))

theorem reach_exDrawAB : Relation.ReflTransGen Step exL0 exDrawAB :=
  Relation.ReflTransGen.tail reach_exDrawA
    (Step.submitDrawing exDrawA "B" "imgB" "dB" (by decide))

theorem reach_exVote : Relation.ReflTransGen Step exL0 exVote :=
  Relation.ReflTransGen.tail reach_exDrawAB (Step.startVotingPhase exDrawAB 5)

theorem reach_exVoteB : Relation.ReflTransGen Step exL0 exVoteB :=
  Relation.ReflTransGen.tail reach_exVote (Step.castVote exVote "B" "dA")

theorem reach_exC2 : Reachable exC2 :=
  ⟨"L", 20, 2,
    Relation.ReflTransGen.tail reach_exVoteB (Step.removePlayer exVoteB "B")⟩

theorem reach_exDrawA_lobby : Reachable exDrawA := ⟨"L", 20, 2, reach_exDrawA⟩

/-- In a list whose images under `g` have no duplicates, the first match of
    an identifier is the member carrying it. -/
theorem find?_eq_of_mem_nodup {α β : Type} [DecidableEq β] (g : α → β) (xs : List α) (x : α)
    (hmem : x ∈ xs) (hnodup : (xs.map g).Nodup) :
    xs.find? (fun y => g y == g x) = some x := by
  induction xs with
  | nil => simp at hmem
  | cons a l ih =>
      rcases List.mem_cons.mp hmem with rfl | hmem'
      · rw [List.find?_cons_of_pos _ (by simp)]
      · have hnd : (∀ y ∈ l, ¬g y = g a) ∧ (List.map g l).Nodup := by simpa using hnodup
        by_cases hga : (g a == g x) = true
        · exfalso
          have h1 : g a = g x := by simpa using hga
          exact hnd.1 x hmem' (h1 ▸ rfl)
        · have hstep : List.find? (fun y => g y == g x) (a :: l)
              = List.find? (fun y => g y == g x) l := List.find?_cons_of_neg _ hga
          rw [hstep]
          exact ih hmem' hnd.2

/-! ### Claim theorems -/

/-- Claim C1, counterexample: in the reachable lobby `exC1`, participant A
    cast a color-theme vote for Nature and was then removed by
    `remove_player`; the tally for Nature is still 1 although no current
    participant votes Nature, so the claimed equality
    `tally[t] = |{p : p.vote = t}|` fails on this reachable state. -/
theorem c1_counterexample :
    Reachable exC1 ∧ exC1.color_theme_votes "Nature" = 1
      ∧ countThemeVotes exC1.players "Nature" = 0 :=
  ⟨reach_exC1, by decide, by decide⟩

/-- Claim C1, amended: for every reachable lobby state and every theme tag
    `t`, the color-theme tally for `t` is at least the number of current
    participants whose color-theme vote is `t`; equality can fail only
    because `remove_player` does not decrement the removed participant's
    theme-vote tally. -/
theorem c1_theme_tally_ge (L : Lobby) (h : Reachable L) (t : String) :
    (countThemeVotes L.players t : Int) ≤ L.color_theme_votes t :=
  (inv_reachable L h).theme_le t

/-- Witness for `c1_theme_tally_ge` at the reachable lobby `exC1`. -/
theorem c1_theme_tally_ge_witness :
    (countThemeVotes exC1.players "Nature" : Int) ≤ exC1.color_theme_votes "Nature" :=
  c1_theme_tally_ge exC1 reach_exC1 "Nature"

/-- Claim C2, counterexample: in the reachable lobby `exC2` (in
    VOTING_FOR_DRAWINGS), participant B voted for A's drawing `dA` and was
    then removed by `remove_player`; `dA` keeps a tally of 1 although no
    current participant's drawing-vote target is `dA`, so the removed
    participant's cast vote was not revoked. -/
theorem c2_counterexample :
    Reachable exC2 ∧ exC2.game_status = GameStatus.voting_for_drawings
      ∧ exC2.drawings.map Drawing.drawing_id = ["dA"]
      ∧ exC2.drawings.map Drawing.votes = [1]
      ∧ countDrawVotes exC2.players "dA" = 0 :=
  ⟨reach_exC2, by decide, by decide, by decide, by decide⟩

/-- Claim C2, amended: for every reachable lobby in VOTING_FOR_DRAWINGS or
    SHOWCASING_RESULTS and every drawing `d` in its list, `d`'s tallied vote
    count is at least the number of current participants whose drawing-vote
    target is `d`'s identifier; `remove_player` removes the removed
    participant's own drawing but does not revoke votes that participant
    had cast, so the tally may strictly exceed the count after a removal. -/
theorem c2_drawing_tally_ge (L : Lobby) (h : Reachable L)
    (hphase : L.game_status = GameStatus.voting_for_drawings
      ∨ L.game_status = GameStatus.showcasing_results) :
    ∀ d ∈ L.drawings, (countDrawVotes L.players d.drawing_id : Int) ≤ d.votes :=
  fun d hd => (inv_reachable L h).draw_le d hd

/-- Witness for `c2_drawing_tally_ge` at the reachable lobby `exC2` and its
    single remaining drawing. -/
theorem c2_drawing_tally_ge_witness :
    (countDrawVotes exC2.players
      (Drawing.drawing_id { drawing_id := "dA", player_id := "A", drawing_data := "imgA"
                            drawing_theme := "A dream you had", votes := 1
                            current_voters := {"B"} }) : Int)
      ≤ Drawing.votes { drawing_id := "dA", player_id := "A", drawing_data := "imgA"
                        drawing_theme := "A dream you had", votes := 1
                        current_voters := {"B"} } :=
  c2_drawing_tally_ge exC2 reach_exC2 (Or.inl (by decide)) _ (by decide)

/-- Claim C4, counterexample: `exDrawA` is a reachable lobby in DRAWING with
    exactly one drawing (one of two participants submitted); at the phase
    deadline `finish_drawing_phase` requires at least two submitted
    participants, so the lobby transitions to ENDED, not to
    VOTING_FOR_DRAWINGS as the claim states for "at least one drawing". -/
theorem c4_counterexample :
    Reachable exDrawA ∧ exDrawA.game_status = GameStatus.drawing
      ∧ exDrawA.drawings.length = 1
      ∧ (finishDrawingPhase exDrawA 1000).game_status = GameStatus.ended
      ∧ (finishDrawingPhase exDrawA 1000).game_status ≠ GameStatus.voting_for_drawings :=
  ⟨reach_exDrawA_lobby, by decide, by decide, by decide, by decide⟩

/-- Invariants of `Lobby.submit_drawing`: a successful submission implies
    the lobby was in DRAWING and leaves a nonempty drawings list, and the
    game status is never changed by the call. -/
theorem submitDrawing_inv (L : Lobby) (pid data did : String) :
    ((L.submitDrawing pid data did).2 = true →
      L.game_status = GameStatus.drawing ∧ (L.submitDrawing pid data did).1.drawings ≠ [])
    ∧ (L.submitDrawing pid data did).1.game_status = L.game_status := by
  unfold Lobby.submitDrawing
  split
  case h_2 => exact ⟨by simp, rfl⟩
  case h_1 player theme0 hplayer htheme =>
    split
    case isTrue h => exact ⟨fun _ => ⟨h, by simp⟩, rfl⟩
    case isFalse h => exact ⟨by simp, rfl⟩

/-- Claim C4, amended: when the DRAWING deadline expires the lobby
    transitions to VOTING_FOR_DRAWINGS provided at least two participants
    have a submitted drawing (and hence a drawing exists); with fewer than
    two submitted participants — even if one drawing exists — the lobby
    transitions from DRAWING to ENDED via `end_game`.  The early transition
    on unanimous submission is as claimed: a successful submission after
    which every participant has a drawing moves the lobby to
    VOTING_FOR_DRAWINGS. -/
theorem c4_finish_drawing_phase (L : Lobby) (now : Int)
    (hst : L.game_status = GameStatus.drawing) :
    (2 ≤ submittedCount L → L.drawings ≠ [] →
      (finishDrawingPhase L now).game_status = GameStatus.voting_for_drawings)
    ∧ (submittedCount L < 2 →
      finishDrawingPhase L now = L.endGame
        ∧ (finishDrawingPhase L now).game_status = GameStatus.ended)
    ∧ (∀ pid data did, (L.submitDrawing pid data did).2 = true →
        (L.submitDrawing pid data did).1.players.length
            ≤ submittedCount (L.submitDrawing pid data did).1 →
        (handleDrawingSubmission L pid data did now).1.game_status
          = GameStatus.voting_for_drawings) := by
  refine ⟨?_, ?_, ?_⟩
  · intro h2 hne
    unfold finishDrawingPhase
    rw [if_pos h2]
    unfold Lobby.startVotingPhase
    rw [if_pos ⟨hst, hne⟩]
  · intro h2
    unfold finishDrawingPhase
    rw [if_neg (by omega)]
    exact ⟨rfl, rfl⟩
  · intro pid data did hsucc hall
    have hinv := submitDrawing_inv L pid data did
    have hne := (hinv.1 hsucc).2
    have hstat : (L.submitDrawing pid data did).1.game_status = GameStatus.drawing :=
      hinv.2.trans hst
    simp only [handleDrawingSubmission, hsucc, Bool.not_true]
    rw [if_neg (by simp), if_pos hall]
    unfold Lobby.startVotingPhase
    rw [if_pos ⟨hstat, hne⟩]

/-- Witness for `c4_finish_drawing_phase`: with both participants submitted,
    the deadline moves the lobby to VOTING_FOR_DRAWINGS. -/
theorem c4_finish_drawing_phase_witness :
    (finishDrawingPhase exDrawAB 1000).game_status = GameStatus.voting_for_drawings :=
  (c4_finish_drawing_phase exDrawAB 1000 (by decide)).1 (by decide) (by decide)

/-- Claim C5, counterexample: in the reachable DRAWING lobby `exDrawA`,
    participant A has already submitted drawing `dA`, yet a second
    `submit_drawing` by A succeeds, appends a second drawing, and reattaches
    A to the new one — the source has no already-submitted refusal. -/
theorem c5_counterexample :
    exDrawA.game_status = GameStatus.drawing
      ∧ Option.map Player.drawing (exDrawA.getPlayer "A") = some (some "dA")
      ∧ exDrawA.drawings.length = 1
      ∧ (exDrawA.submitDrawing "A" "imgA2" "dA2").2 = true
      ∧ (exDrawA.submitDrawing "A" "imgA2" "dA2").1.drawings.length = 2
      ∧ Option.map Player.drawing
          ((exDrawA.submitDrawing "A" "imgA2" "dA2").1.getPlayer "A") = some (some "dA2") := by
  decide

/-- Claim C5, amended: during DRAWING (with a prompt set), `submit_drawing`
    by a present participant always succeeds — including a second submission
    by the same author: each call creates a new drawing, appends it to the
    drawings list, and attaches it to the author.  Second submissions are
    not refused. -/
theorem c5_submit_drawing (L : Lobby) (pid data did : String) (p : Player)
    (hp : L.getPlayer pid = some p) (hst : L.game_status = GameStatus.drawing)
    (theme0 : String) (hth : L.current_drawing_theme = some theme0) :
    (L.submitDrawing pid data did).2 = true
    ∧ (L.submitDrawing pid data did).1.drawings
        = L.drawings ++ [{ drawing_id := did, player_id := pid, drawing_data := data
                           drawing_theme := theme0, votes := 0, current_voters := ∅ }]
    ∧ Option.map Player.drawing ((L.submitDrawing pid data did).1.getPlayer pid)
        = some (some did) := by
  have hpf : L.players.find? (fun q => q.player_id == pid) = some p := hp
  have hfind := find?_updateFirstBy_self (fun q => q.player_id == pid)
    (fun q => { q with drawing := some did }) (fun _ => rfl) L.players p hpf
  simp only [Lobby.submitDrawing, hp, hth]
  rw [if_pos hst]
  refine ⟨rfl, rfl, ?_⟩
  simp [Lobby.getPlayer, hfind]

/-- Witness for `c5_submit_drawing`: A's second submission in `exDrawA`. -/
theorem c5_submit_drawing_witness :
    (exDrawA.submitDrawing "A" "imgA2" "dA2").2 = true :=
  (c5_submit_drawing exDrawA "A" "imgA2" "dA2"
    { player_id := "A", display_name := "Alice", is_ready := false, score := 0
      voted_for_drawing_id := none, color_theme_vote := none
      drawing := some "dA", is_host := true }
    (by decide) (by decide) "A dream you had" (by decide)).1

/-- Claim C7: the code bug, evaluated.  The server's end-of-round settle
    (`end_game` followed by `reset_lobby_for_rejoin`, both of which call
    `Lobby.end_game`) clears every participant's per-round state and
    preserves every score, but it leaves `game_status = ENDED`: nothing in
    the source ever returns the status to WAITING_FOR_PLAYERS, so the
    claimed reset — whose very purpose is to let participants rejoin —
    never happens and `can_player_join` refuses all joins afterwards. -/
theorem c7_end_reset (L : Lobby) :
    (serverEndGame L).game_status = GameStatus.ended
    ∧ (serverEndGame L).game_status ≠ GameStatus.waiting_for_players
    ∧ (serverEndGame L).players = L.players.map (fun p =>
        { p with is_ready := false, color_theme_vote := none
                 drawing := none, voted_for_drawing_id := none })
    ∧ (serverEndGame L).players.map Player.score = L.players.map Player.score
    ∧ (serverEndGame exVoteB).canPlayerJoin "Z"
        = (false, "Game is already in progress") := by
  refine ⟨rfl, by simp [serverEndGame, resetLobbyForRejoin, Lobby.endGame], ?_, ?_, by decide⟩
  · simp only [serverEndGame, resetLobbyForRejoin, Lobby.endGame, List.map_map]
    rfl
  · simp only [serverEndGame, resetLobbyForRejoin, Lobby.endGame, List.map_map]
    rfl

/-- Claim C8, counterexample: `exTheme` is in THEME_VOTING (not
    WAITING_FOR_PLAYERS), yet `set_player_ready` flips A's ready flag from
    false to true — the source has no phase guard, so the call is not a
    no-op outside WAITING_FOR_PLAYERS. -/
theorem c8_counterexample :
    exTheme.game_status ≠ GameStatus.waiting_for_players
      ∧ Option.map Player.is_ready (exTheme.getPlayer "A") = some false
      ∧ Option.map Player.is_ready ((exTheme.setPlayerReady "A" true).getPlayer "A")
          = some true := by
  decide

/-- Claim C8, amended: `set_player_ready` updates the named participant's
    ready flag in every phase — including outside WAITING_FOR_PLAYERS — and
    changes nothing else; it is a no-op exactly when the participant is not
    in the lobby. -/
theorem c8_set_ready (L : Lobby) (pid : String) (b : Bool) :
    (L.getPlayer pid = none → L.setPlayerReady pid b = L)
    ∧ (∀ p, L.getPlayer pid = some p →
        L.setPlayerReady pid b
          = { L with players := updateFirstBy (fun q => q.player_id == pid)
                                  (fun q => { q with is_ready := b }) L.players }) := by
  constructor
  · intro h
    unfold Lobby.setPlayerReady
    rw [h]
  · intro p hp
    unfold Lobby.setPlayerReady
    rw [hp]

/-- Witness for `c8_set_ready`: absent participant, and A in `exTheme`. -/
theorem c8_set_ready_witness :
    exTheme.setPlayerReady "Z" true = exTheme :=
  (c8_set_ready exTheme "Z" true).1 (by decide)

/-- Claim C9: the broadcast snapshot never contains the lobby password: the
    settings dictionary replaces the password field with the boolean
    `has_password`, and two lobbies that differ only in their (both-set)
    password strings produce identical snapshots. -/
theorem c9_password_never_emitted :
    (∀ s : LobbySettings, (LobbySettings.toDict s).has_password = s.lobby_password.isSome)
    ∧ (∀ (L : Lobby) (now : Int) (pw1 pw2 : String),
        Lobby.getLobbyState { L with settings := { L.settings with lobby_password := some pw1 } } now
          = Lobby.getLobbyState { L with settings := { L.settings with lobby_password := some pw2 } } now) := by
  constructor
  · intro s; rfl
  · intro L now pw1 pw2
    simp [Lobby.getLobbyState, LobbySettings.toDict, Lobby.getPlayer,
      Lobby.getCurrentVotingDrawing, Lobby.playerNameOrUnknown]

/-- Claim C10: `add_player` with a player whose identifier is already in the
    participant list returns False and leaves the lobby (participants, host,
    and every other field) unchanged: both the capacity/status refusal path
    and the membership check return before any mutation. -/
theorem c10_add_existing (L : Lobby) (player : Player)
    (h : ∃ p ∈ L.players, p.player_id = player.player_id) :
    L.addPlayer player = (L, false) := by
  unfold Lobby.addPlayer
  split_ifs with h1 h2
  · rfl
  · exfalso
    obtain ⟨p, hp, hpe⟩ := h
    have hall := List.all_eq_true.mp h2 p hp
    simp [hpe] at hall
  · rfl

/-- Witness for `c10_add_existing`: re-adding A to `exLAB`. -/
theorem c10_add_existing_witness :
    exLAB.addPlayer (Player.init "A" "Anna") = (exLAB, false) :=
  c10_add_existing exLAB (Player.init "A" "Anna") (by decide)

theorem canStartGame_iff (L : Lobby) (hmin : 1 ≤ L.settings.min_players) :
    L.canStartGame = true ↔
      (L.settings.min_players ≤ (L.players.length : Int)
        ∧ (∀ p ∈ L.players, p.is_ready = true)
        ∧ L.game_status = GameStatus.waiting_for_players) := by
  unfold Lobby.canStartGame Lobby.allPlayersReady
  simp only [Bool.and_eq_true, decide_eq_true_eq, beq_iff_eq]
  constructor
  · rintro ⟨⟨hlen, hready⟩, hstatus⟩
    refine ⟨hlen, ?_, hstatus⟩
    intro p hp
    split_ifs at hready with he
    simp at hready
    exact hready p hp
  · rintro ⟨hlen, hready, hstatus⟩
    refine ⟨⟨hlen, ?_⟩, hstatus⟩
    have hne : ¬L.players.isEmpty = true := by
      intro he
      rw [List.isEmpty_iff] at he
      rw [he] at hlen
      simp at hlen
      omega
    rw [if_neg hne]
    exact List.all_eq_true.mpr hready

/-- Claim C3: with a host-initiated `start_game` on a lobby whose minimum is
    at least 1, the transition WAITING_FOR_PLAYERS → THEME_VOTING happens
    exactly when the participant count reaches the minimum, every
    participant is ready, and the lobby is waiting; a refused start leaves
    the lobby unchanged.  In particular the two-participant lobby
    `exReadyAB` (exactly `min_players = 2` participants, all ready) starts,
    while `exReadyA` (one fewer) does not. -/
theorem c3_start_game :
    (∀ (L : Lobby) (caller : String) (now : Int),
        L.host_id = some caller → 1 ≤ L.settings.min_players →
        ((((startGameHandler L caller now).2 = true
            ∧ (startGameHandler L caller now).1.game_status = GameStatus.theme_voting)
          ↔ (L.settings.min_players ≤ (L.players.length : Int)
              ∧ (∀ p ∈ L.players, p.is_ready = true)
              ∧ L.game_status = GameStatus.waiting_for_players))
          ∧ ((startGameHandler L caller now).2 = false → (startGameHandler L caller now).1 = L)))
    ∧ (startGameHandler exReadyAB "A" 0).2 = true
    ∧ (startGameHandler exReadyAB "A" 0).1.game_status = GameStatus.theme_voting
    ∧ exReadyAB.players.length = 2 ∧ exReadyAB.settings.min_players = 2
    ∧ (startGameHandler exReadyA "A" 0).2 = false
    ∧ (startGameHandler exReadyA "A" 0).1 = exReadyA
    ∧ exReadyA.players.length = 1 := by
  have hmain : ∀ (L : Lobby) (caller : String) (now : Int),
      L.host_id = some caller → 1 ≤ L.settings.min_players →
      ((((startGameHandler L caller now).2 = true
          ∧ (startGameHandler L caller now).1.game_status = GameStatus.theme_voting)
        ↔ (L.settings.min_players ≤ (L.players.length : Int)
            ∧ (∀ p ∈ L.players, p.is_ready = true)
            ∧ L.game_status = GameStatus.waiting_for_players))
        ∧ ((startGameHandler L caller now).2 = false → (startGameHandler L caller now).1 = L)) := by
    intro L caller now hhost hmin
    have hih : L.isHost caller = true := by simp [Lobby.isHost, hhost]
    constructor
    · constructor
      · rintro ⟨hsucc, _⟩
        refine (canStartGame_iff L hmin).mp ?_
        by_contra hcs
        rw [Bool.not_eq_true] at hcs
        unfold startGameHandler at hsucc
        rw [hih, hcs] at hsucc
        simp at hsucc
      · rintro ⟨hlen, hready, hstatus⟩
        have hcs : L.canStartGame = true := (canStartGame_iff L hmin).mpr ⟨hlen, hready, hstatus⟩
        unfold startGameHandler
        rw [hih, hcs]
        refine ⟨rfl, ?_⟩
        show (L.startThemeVoting now).game_status = GameStatus.theme_voting
        unfold Lobby.startThemeVoting
        rw [if_pos ⟨hstatus, hlen⟩]
    · intro hfail
      unfold startGameHandler at hfail ⊢
      split_ifs at hfail ⊢ <;> simp_all
  exact ⟨hmain, by decide, by decide, by decide, by decide, by decide, rfl, by decide⟩

/-- Witness for `c3_start_game`'s quantified part at `exReadyAB`. -/
theorem c3_start_game_witness :
    (startGameHandler exReadyAB "A" 0).2 = true
      ∧ (startGameHandler exReadyAB "A" 0).1.game_status = GameStatus.theme_voting :=
  ((c3_start_game.1 exReadyAB "A" 0 (by decide) (by decide)).1).mpr
    ⟨by decide, by decide, by decide⟩

/-- Claim C6: `cast_vote` refuses a vote when no drawing is displayed, when
    the voted drawing is not the currently displayed one, when the voter has
    already voted for this drawing, or when the voter is the displayed
    drawing's author; each refusal returns the lobby unchanged (the refusal
    paths precede every mutation).  A vote for the displayed drawing by a
    present non-author who has not yet voted for it succeeds, increments
    exactly that drawing's tally by one, records the voter in its live-voter
    set, and sets the voter's drawing-vote target. -/
theorem c6_cast_drawing_vote (L : Lobby) (voter_id did : String) :
    (L.getCurrentVotingDrawing = none → L.castVote voter_id did = (L, false))
    ∧ (∀ cd, L.getCurrentVotingDrawing = some cd → cd.drawing_id ≠ did →
        L.castVote voter_id did = (L, false))
    ∧ (∀ p, L.getPlayer voter_id = some p → p.voted_for_drawing_id = some did →
        L.castVote voter_id did = (L, false))
    ∧ (∀ cd, (L.drawings.map Drawing.drawing_id).Nodup →
        L.getCurrentVotingDrawing = some cd → cd.drawing_id = did →
        cd.player_id = voter_id → L.castVote voter_id did = (L, false))
    ∧ (∀ cd p, (L.drawings.map Drawing.drawing_id).Nodup →
        L.getCurrentVotingDrawing = some cd → cd.drawing_id = did →
        L.getPlayer voter_id = some p → p.voted_for_drawing_id ≠ some did →
        cd.player_id ≠ voter_id →
        ((L.castVote voter_id did).2 = true
          ∧ (L.castVote voter_id did).1.drawings.find? (fun d => d.drawing_id == did)
              = some { cd with votes := cd.votes + 1
                               current_voters := insert voter_id cd.current_voters }
          ∧ Option.map Player.voted_for_drawing_id
              ((L.castVote voter_id did).1.getPlayer voter_id) = some (some did))) := by
  refine ⟨?_, ?_, ?_, ?_, ?_⟩
  · intro hnone
    rcases hq : L.getPlayer voter_id with _ | voter
    · simp [Lobby.castVote, hq]
    · simp [Lobby.castVote, hq, hnone]
  · intro cd hcd hne
    rcases hq : L.getPlayer voter_id with _ | voter
    · simp [Lobby.castVote, hq]
    · simp only [Lobby.castVote, hq, hcd]
      rw [if_pos hne]
  · intro p hpl hpv
    rcases hcurrent : L.getCurrentVotingDrawing with _ | cd
    · simp [Lobby.castVote, hpl, hcurrent]
    · simp only [Lobby.castVote, hpl, hcurrent]
      by_cases hid : cd.drawing_id ≠ did
      · rw [if_pos hid]
      · rw [if_neg hid, if_pos (show (p.voted_for_drawing_id == some did) = true by simp [hpv])]
  · intro cd hnodup hcd hcdid hauthor
    subst hcdid
    rcases hq : L.getPlayer voter_id with _ | p
    · simp [Lobby.castVote, hq]
    · simp only [Lobby.castVote, hq, hcd]
      rw [if_neg (not_not_intro rfl)]
      by_cases hv2 : (p.voted_for_drawing_id == some cd.drawing_id) = true
      · rw [if_pos hv2]
      · rw [if_neg hv2]
        have hfind := find?_eq_of_mem_nodup Drawing.drawing_id L.drawings cd
          (getCurrentVotingDrawing_some L cd hcd).2 hnodup
        simp only [hfind]
        rw [if_neg (not_not_intro hauthor)]
  · intro cd p hnodup hcd hcdid hpl hpv hne
    subst hcdid
    have hpf : L.players.find? (fun q => q.player_id == voter_id) = some p := hpl
    have hfind := find?_eq_of_mem_nodup Drawing.drawing_id L.drawings cd
      (getCurrentVotingDrawing_some L cd hcd).2 hnodup
    simp only [Lobby.castVote, hpl, hcd, hfind]
    rw [if_neg (not_not_intro rfl),
      if_neg (show ¬(p.voted_for_drawing_id == some cd.drawing_id) = true by simp [hpv]),
      if_pos hne]
    refine ⟨rfl, ?_, ?_⟩
    · by_cases hpt : pyTruthyOptStr p.voted_for_drawing_id = true
      · rw [if_pos hpt]
        have hdisj : ∀ x : Drawing,
            ((fun d => some d.drawing_id == p.voted_for_drawing_id) x) = true →
            ((fun d => d.drawing_id == cd.drawing_id) x) = false := by
          intro x hx
          have hxid : some x.drawing_id = p.voted_for_drawing_id := by
            simpa [beq_iff_eq] using hx
          simp only [beq_eq_false_iff_ne]
          intro h0
          exact hpv (by rw [← hxid, h0])
        have hfind1 : (updateFirstBy (fun d => some d.drawing_id == p.voted_for_drawing_id)
            (fun d => { d with votes := max 0 (d.votes - 1)
                               current_voters := d.current_voters.erase voter_id })
            L.drawings).find? (fun d => d.drawing_id == cd.drawing_id) = some cd := by
          rw [find?_updateFirstBy_of_disjoint
            (fun d : Drawing => some d.drawing_id == p.voted_for_drawing_id)
            (fun d : Drawing => d.drawing_id == cd.drawing_id)
            (fun d : Drawing => { d with votes := max 0 (d.votes - 1)
                                         current_voters := d.current_voters.erase voter_id })
            hdisj (fun x => rfl)]
          exact hfind
        exact find?_updateFirstBy_self (fun d => d.drawing_id == cd.drawing_id)
          (fun d => { d with votes := d.votes + 1
                             current_voters := insert voter_id d.current_voters })
          (fun x => rfl) _ cd hfind1
      · rw [if_neg hpt]
        exact find?_updateFirstBy_self (fun d => d.drawing_id == cd.drawing_id)
          (fun d => { d with votes := d.votes + 1
                             current_voters := insert voter_id d.current_voters })
          (fun x => rfl) L.drawings cd hfind
    · have hpfind := find?_updateFirstBy_self (fun q => q.player_id == voter_id)
        (fun q => { q with voted_for_drawing_id := some cd.drawing_id }) (fun _ => rfl)
        L.players p hpf
      simp [Lobby.getPlayer, hpfind]

/-- Witness for `c6_cast_drawing_vote`: in `exVote`, B's vote for the
    displayed drawing `dA` succeeds and increments its tally to 1. -/
theorem c6_cast_drawing_vote_witness :
    (exVote.castVote "B" "dA").2 = true
      ∧ (exVote.castVote "B" "dA").1.drawings.find? (fun d => d.drawing_id == "dA")
          = some { drawing_id := "dA", player_id := "A", drawing_data := "imgA"
                   drawing_theme := "A dream you had", votes := 0 + 1
                   current_voters := insert "B" ∅ }
      ∧ Option.map Player.voted_for_drawing_id
          ((exVote.castVote "B" "dA").1.getPlayer "B") = some (some "dA") :=
  (c6_cast_drawing_vote exVote "B" "dA").2.2.2.2
    { drawing_id := "dA", player_id := "A", drawing_data := "imgA"
      drawing_theme := "A dream you had", votes := 0, current_voters := ∅ }
    { player_id := "B", display_name := "Bob", is_ready := false, score := 0
      voted_for_drawing_id := none, color_theme_vote := none
      drawing := some "dB", is_host := false }
    (by decide) (by decide) (by decide) (by decide) (by decide) (by decide)

end Dotverse
